import Mathlib

/-
Verification of the sicom archive-transcoding pipeline (src/src/main.rs,
src/src/image.rs, src/src/audio.rs, src/src/video.rs) against its
natural-language specification.

Embedding conventions:
* Byte strings (entry payloads, the manifest text, archive paths) are modeled
  as `List Char`.  On ASCII data — which covers every concrete input used
  below — this agrees byte-for-byte with the Rust `&str`/`Vec<u8>` values, and
  `List.length` agrees with Rust's byte lengths.
* Rust `u32`/`u64` counters and byte sums are modeled as `Nat`.  The pipeline
  only ever adds entry counts and entry byte lengths, so no wrap-around is
  reachable for physically realizable archives and the unbounded model is
  exact there.
* The external codec collaborators (the `image`, `webp`, `symphonia`,
  `mp3lame-encoder` crates and the external ffmpeg process) are opaque to the
  pipeline; they are modeled as oracle functions gathered in a `Codecs`
  structure.  Everything the repository's own code computes around them
  (format detection from the extension, size bookkeeping, dispatch) is
  translated directly.
* `HashMap` iteration order over the rename registry is unspecified in Rust;
  the model keeps the registry as a list in insertion order (every order is a
  realizable behaviour of the code).
* Filesystem and process effects (opening the source archive, creating the
  destination, reading entries) are modeled as an explicit event trace
  emitted by `compress_pack`, in the order the corresponding calls appear in
  the source.
-/

/-- Strings are modeled as lists of characters. -/
abbrev Str := List Char

/-- Conversion from Lean string literals to the model's string type. -/
def s2l (s : String) : Str := s.data

/-! ### Substring counting and replacement

`String::matches(pat).count()` and `String::replace(pat, rep)` in Rust both
scan left to right and act on non-overlapping occurrences.  The fuel argument
(instantiated with the text length) makes the recursion structural; each step
consumes at least one character of the text, so `text.length` fuel is always
enough.  The pipeline only ever uses non-empty patterns; for an empty pattern
these models are no-ops. -/

/-- Count non-overlapping occurrences of `pat` in `text`, leftmost first. -/
def countOccsFuel : Nat → Str → Str → Nat
  | 0, _, _ => 0
  | Nat.succ fuel, pat, text =>
    match text with
    | [] => 0
    | _ :: rest =>
      if pat ≠ [] ∧ pat.isPrefixOf text then
        1 + countOccsFuel fuel pat (text.drop pat.length)
      else
        countOccsFuel fuel pat rest

/-- `str::matches(pat).count()`: non-overlapping occurrences of `pat`. -/
def countOccs (pat text : Str) : Nat := countOccsFuel text.length pat text

/-- Replace occurrences, leftmost first, non-overlapping (fuel-driven). -/
def replaceFuel : Nat → Str → Str → Str → Str
  | 0, _, _, text => text
  | Nat.succ fuel, pat, rep, text =>
    match text with
    | [] => []
    | c :: rest =>
      if pat ≠ [] ∧ pat.isPrefixOf text then
        rep ++ replaceFuel fuel pat rep (text.drop pat.length)
      else
        c :: replaceFuel fuel pat rep rest

/-- `str::replace(pat, rep)`: replace all non-overlapping occurrences. -/
def replaceAll (pat rep text : Str) : Str := replaceFuel text.length pat rep text

/-! ### Percent encoding and decoding

Modelled from the spec: the percent codec is the external `urlencoding`
crate (an external collaborator, not part of this repository's sources).
Per the spec, the rewriter uses "the literal string, its percent-decoded
form, and its percent-encoded form (decoding/encoding failures fall back to
the literal string unchanged)".  The model below is exact for ASCII input:
unreserved characters (letters, digits, `-`, `_`, `.`, `~`) stay literal,
everything else becomes uppercase `%XX` escapes of its UTF-8 bytes, and
decoding turns valid `%XX` hex escapes back into the coded character while
keeping malformed escapes literal. -/

/-- Uppercase hexadecimal digit for a value below 16. -/
def hexDigit (n : Nat) : Char :=
  if n < 10 then Char.ofNat (48 + n) else Char.ofNat (55 + n)

/-- Is this character a hexadecimal digit? -/
def isHexChar (c : Char) : Bool :=
  (('0' ≤ c ∧ c ≤ '9') ∨ ('a' ≤ c ∧ c ≤ 'f') ∨ ('A' ≤ c ∧ c ≤ 'F') : Prop)

/-- Numeric value of a hexadecimal digit character. -/
def hexVal (c : Char) : Nat :=
  if '0' ≤ c ∧ c ≤ '9' then c.toNat - 48
  else if 'a' ≤ c ∧ c ≤ 'f' then c.toNat - 87
  else c.toNat - 55

/-- UTF-8 bytes of a character (by code point). -/
def utf8Bytes (c : Char) : List Nat :=
  let n := c.toNat
  if n < 0x80 then [n]
  else if n < 0x800 then [0xC0 + n / 0x40, 0x80 + n % 0x40]
  else if n < 0x10000 then
    [0xE0 + n / 0x1000, 0x80 + n / 0x40 % 0x40, 0x80 + n % 0x40]
  else
    [0xF0 + n / 0x40000, 0x80 + n / 0x1000 % 0x40, 0x80 + n / 0x40 % 0x40,
      0x80 + n % 0x40]

/-- Characters kept literal by percent encoding (RFC 3986 unreserved set). -/
def isUnreserved (c : Char) : Bool :=
  c.isAlpha ∨ c.isDigit ∨ c = '-' ∨ c = '_' ∨ c = '.' ∨ c = '~'

/-- Modelled from the spec: `urlencoding::encode` from the external
`urlencoding` crate.  Unreserved characters stay, all other bytes become
uppercase `%XX` escapes. -/
def percentEncode (s : Str) : Str :=
  s.flatMap fun c =>
    if isUnreserved c then [c]
    else (utf8Bytes c).flatMap fun b => ['%', hexDigit (b / 16), hexDigit (b % 16)]

/-- Modelled from the spec: `urlencoding::decode` from the external
`urlencoding` crate, ASCII-faithful: a valid `%XX` escape becomes the coded
character, malformed escapes are kept literally, and a failure falls back to
the literal string (per the spec's fallback clause). -/
def percentDecode : Str → Str
  | [] => []
  | '%' :: a :: b :: rest =>
    if isHexChar a ∧ isHexChar b then
      Char.ofNat (16 * hexVal a + hexVal b) :: percentDecode rest
    else
      '%' :: percentDecode (a :: b :: rest)
  | c :: rest => c :: percentDecode rest

/-! ### Paths: file names, extensions, classification

`std::path::Path::file_name`/`extension` are modeled for ordinary
forward-slash archive paths: trailing slashes are ignored, the file name is
the part after the last `/`, and the extension is the part of the file name
after its last `.` — absent when the file name has no dot, or its only dot is
its leading character, or the name is `.`/`..` (Rust's component
normalization of interior `.`/`..` segments is not reproduced; no archive
path below contains such segments). -/

/-- Drop trailing `/` characters (Rust paths ignore them). -/
def dropTrailingSlashes (s : Str) : Str :=
  (s.reverse.dropWhile (fun c => c = '/')).reverse

/-- `Path::file_name` for forward-slash paths. -/
def fileNameOf (p : Str) : Option Str :=
  let q := dropTrailingSlashes p
  let name := (q.reverse.takeWhile (fun c => c ≠ '/')).reverse
  if name = [] ∨ name = ['.'] ∨ name = ['.', '.'] then none else some name

/-- `Path::extension` for forward-slash paths. -/
def extensionOf (p : Str) : Option Str :=
  match fileNameOf p with
  | none => none
  | some name =>
    let extRev := name.reverse.takeWhile (fun c => c ≠ '.')
    if extRev.length = name.length then none
    else if name.length - extRev.length - 1 = 0 then none
    else some extRev.reverse

/-- `str::to_lowercase` (ASCII-exact; the compared extensions are ASCII). -/
def toLowerStr (s : Str) : Str := s.map Char.toLower

/-- `image::is_supported_image` (src/src/image.rs:5-12): extension among
jpg/jpeg/png/webp, case-insensitively. -/
def is_supported_image (filename : Str) : Bool :=
  match extensionOf filename with
  | some ext =>
    let e := toLowerStr ext
    e = s2l "jpg" ∨ e = s2l "jpeg" ∨ e = s2l "png" ∨ e = s2l "webp"
  | none => false

/-- `audio::is_supported_audio` (src/src/audio.rs:27-32): extension mp3,
case-insensitively. -/
def is_supported_audio (filename : Str) : Bool :=
  match extensionOf filename with
  | some ext => toLowerStr ext = s2l "mp3"
  | none => false

/-- `video::is_supported_video` (src/src/video.rs:29-39): extension among
mp4/mov/avi/mkv/wmv/webm, case-insensitively. -/
def is_supported_video (filename : Str) : Bool :=
  match extensionOf filename with
  | some ext =>
    let e := toLowerStr ext
    e = s2l "mp4" ∨ e = s2l "mov" ∨ e = s2l "avi" ∨ e = s2l "mkv" ∨
      e = s2l "wmv" ∨ e = s2l "webm"
  | none => false

/-- The manifest entry name (`content.xml`, src/src/main.rs:568). -/
def contentXmlName : Str := s2l "content.xml"

/-- `file_name.starts_with("Images/") && is_supported_image(..)`
(src/src/main.rs:565). -/
def isImageEntryName (p : Str) : Bool :=
  (s2l "Images/").isPrefixOf p && is_supported_image p

/-- `file_name.starts_with("Audio/") && is_supported_audio(..)`
(src/src/main.rs:566). -/
def isAudioEntryName (p : Str) : Bool :=
  (s2l "Audio/").isPrefixOf p && is_supported_audio p

/-- `file_name.starts_with("Video/") && is_supported_video(..)`
(src/src/main.rs:567). -/
def isVideoEntryName (p : Str) : Bool :=
  (s2l "Video/").isPrefixOf p && is_supported_video p

/-- The five entry kinds of the data model. -/
inductive EntryKind
  | image
  | audio
  | video
  | manifest
  | other
  deriving DecidableEq, Repr

/-- Entry classification, read off the flags computed at
src/src/main.rs:564-568 and the branch order of the processing loop
(content.xml first, then image, audio, video, other). -/
def classify (p : Str) : EntryKind :=
  if p = contentXmlName then .manifest
  else if isImageEntryName p then .image
  else if isAudioEntryName p then .audio
  else if isVideoEntryName p then .video
  else .other

example : classify (s2l "Images/test.jpg") = .image := by decide
example : classify (s2l "Images/test.JPG") = .image := by decide
example : classify (s2l "Audio/test.mp3") = .audio := by decide
example : classify (s2l "Video/test.mkv") = .video := by decide
example : classify (s2l "content.xml") = .manifest := by decide
example : classify (s2l "Images/test.gif") = .other := by decide
example : classify (s2l "content.XML") = .other := by decide

/-! ### Codec collaborators

The actual pixel/sample/frame encoders are external crates and an external
ffmpeg process (spec §1, §6); the pipeline only sees their input/output
contract.  They are modeled as oracle functions.  Everything the repository
itself computes around them — extension-based format detection, the PNG
quality-to-compression mapping, the WebP lossless threshold, size
bookkeeping — is translated from the sources. -/

/-- Decoded image data is opaque to the pipeline. -/
abbrev ImgData := Str

/-- PNG compression type chosen from the quality (src/src/image.rs:50-63). -/
inductive PngCompression
  | best
  | default
  | fast
  deriving DecidableEq, Repr

/-- Quality-to-PNG-compression mapping (src/src/image.rs:50-63); the filter
type is always Adaptive. -/
def pngCompressionType (quality : Nat) : PngCompression :=
  if 1 ≤ quality ∧ quality ≤ 33 then .best
  else if 34 ≤ quality ∧ quality ≤ 66 then .default
  else .fast

/-- Oracles for the external codec collaborators. -/
structure Codecs where
  /-- `image::load_from_memory` — may fail to decode. -/
  imgDecode : Str → Option ImgData
  /-- JPEG encoder at a quality (`JpegEncoder::new_with_quality` + write). -/
  jpegEncode : ImgData → Nat → Option Str
  /-- PNG encoder at a compression type (`PngEncoder::new_with_quality`). -/
  pngEncode : ImgData → PngCompression → Option Str
  /-- WebP lossless encoder (`encode_lossless`, cannot fail). -/
  webpLossless : ImgData → Str
  /-- WebP lossy encoder at a quality (`encode`, cannot fail). -/
  webpLossy : ImgData → Nat → Str
  /-- `compress_mp3_file` body (src/src/audio.rs:262-366): symphonia decode
  plus lame encode, external-crate plumbing that may fail. -/
  mp3Compress : Str → Nat → Option Str
  /-- The external ffmpeg encoder run (src/src/video.rs:238-380): temp-file
  round trip plus the subprocess; may fail. -/
  videoEncode : Str → Nat → Option Str

/-- The image formats the inline match at src/src/image.rs:23-31 accepts. -/
inductive ImageFormat
  | jpeg
  | png
  | webp
  deriving DecidableEq, Repr

/-- Extension-based image format detection (src/src/image.rs:22-31). -/
def detect_image_format (filename : Str) : Option ImageFormat :=
  match extensionOf filename with
  | some ext =>
    let e := toLowerStr ext
    if e = s2l "jpg" ∨ e = s2l "jpeg" then some .jpeg
    else if e = s2l "png" then some .png
    else if e = s2l "webp" then some .webp
    else none
  | none => none

/-- `image::compress_image_file` (src/src/image.rs:14-100): detect the format
from the extension, decode, re-encode **in the same format**, return
`(bytes, original_size, compressed_size)` with the sizes taken from the
input/output byte lengths. -/
def compress_image_file (C : Codecs) (data : Str) (filename : Str)
    (quality : Nat) : Option (Str × Nat × Nat) :=
  match detect_image_format filename with
  | none => none
  | some fmt =>
    match C.imgDecode data with
    | none => none
    | some img =>
      let enc : Option Str :=
        match fmt with
        | .jpeg => C.jpegEncode img quality
        | .png => C.pngEncode img (pngCompressionType quality)
        | .webp =>
          some (if 95 ≤ quality then C.webpLossless img
                else C.webpLossy img quality)
      match enc with
      | none => none
      | some out => some (out, data.length, out.length)

/-- `audio::detect_audio_format` (src/src/audio.rs:35-48): mp3 only. -/
def detect_audio_format (filename : Str) : Bool :=
  match extensionOf filename with
  | some ext => toLowerStr ext = s2l "mp3"
  | none => false

/-- `audio::compress_audio_file` (src/src/audio.rs:368-385). -/
def compress_audio_file (C : Codecs) (data : Str) (filename : Str)
    (quality : Nat) : Option (Str × Nat × Nat) :=
  if detect_audio_format filename then
    match C.mp3Compress data quality with
    | none => none
    | some out => some (out, data.length, out.length)
  else none

/-- `video::detect_video_format` (src/src/video.rs:41-53): mp4/mov/avi/mkv
only (wmv/webm are "supported" by the classifier but not by the format
detector, so they fail compression). -/
def detect_video_format (filename : Str) : Bool :=
  match extensionOf filename with
  | some ext =>
    let e := toLowerStr ext
    e = s2l "mp4" ∨ e = s2l "mov" ∨ e = s2l "avi" ∨ e = s2l "mkv"
  | none => false

/-- `video::compress_video_file` (src/src/video.rs:222-381): detect the
format, run the external encoder (temp files + ffmpeg subprocess, all
failure modes folded into the oracle), return sizes from byte lengths. -/
def compress_video_file (C : Codecs) (data : Str) (filename : Str)
    (quality : Nat) : Option (Str × Nat × Nat) :=
  if detect_video_format filename then
    match C.videoEncode data quality with
    | none => none
    | some out => some (out, data.length, out.length)
  else none

/-- Modelled from the spec: `image::to_webp_filename`, called at
src/src/main.rs:616 but absent from the repository's sources.  Per the spec,
the image codec's success path "additionally yields a normalized output
filename" whose "extension may change to the target codec's native
extension", and the call site stores the result "with WebP extension": the
extension is replaced by `webp` (appended when there is none). -/
def to_webp_filename (p : Str) : Str :=
  match extensionOf p with
  | some ext =>
    let q := dropTrailingSlashes p
    q.take (q.length - ext.length) ++ s2l "webp"
  | none => p ++ s2l ".webp"

example : to_webp_filename (s2l "Images/a.png") = s2l "Images/a.webp" := by decide
example : to_webp_filename (s2l "Images/a.webp") = s2l "Images/a.webp" := by decide

/-! ### Statistics (struct `CompressionStats`, src/src/main.rs:17-134) -/

/-- `CompressionStats` (src/src/main.rs:17-44). -/
structure CompressionStats where
  images_processed : Nat := 0
  images_skipped : Nat := 0
  images_kept_original : Nat := 0
  image_original_size : Nat := 0
  image_compressed_size : Nat := 0
  audio_processed : Nat := 0
  audio_skipped : Nat := 0
  audio_kept_original : Nat := 0
  audio_original_size : Nat := 0
  audio_compressed_size : Nat := 0
  video_processed : Nat := 0
  video_skipped : Nat := 0
  video_kept_original : Nat := 0
  video_original_size : Nat := 0
  video_compressed_size : Nat := 0
  total_input_size : Nat := 0
  total_output_size : Nat := 0
  total_updated_refs : Nat := 0
  deriving DecidableEq, Repr

namespace CompressionStats

/-- src/src/main.rs:52-58. -/
def add_processed_image (s : CompressionStats) (original_size compressed_size : Nat) :
    CompressionStats :=
  { s with images_processed := s.images_processed + 1,
           image_original_size := s.image_original_size + original_size,
           image_compressed_size := s.image_compressed_size + compressed_size,
           total_input_size := s.total_input_size + original_size,
           total_output_size := s.total_output_size + compressed_size }

/-- src/src/main.rs:60-66. -/
def add_kept_original_image (s : CompressionStats) (size : Nat) : CompressionStats :=
  { s with images_kept_original := s.images_kept_original + 1,
           image_original_size := s.image_original_size + size,
           image_compressed_size := s.image_compressed_size + size,
           total_input_size := s.total_input_size + size,
           total_output_size := s.total_output_size + size }

/-- src/src/main.rs:68-74. -/
def add_skipped_image (s : CompressionStats) (size : Nat) : CompressionStats :=
  { s with images_skipped := s.images_skipped + 1,
           image_original_size := s.image_original_size + size,
           image_compressed_size := s.image_compressed_size + size,
           total_input_size := s.total_input_size + size,
           total_output_size := s.total_output_size + size }

/-- src/src/main.rs:77-83. -/
def add_processed_audio (s : CompressionStats) (original_size compressed_size : Nat) :
    CompressionStats :=
  { s with audio_processed := s.audio_processed + 1,
           audio_original_size := s.audio_original_size + original_size,
           audio_compressed_size := s.audio_compressed_size + compressed_size,
           total_input_size := s.total_input_size + original_size,
           total_output_size := s.total_output_size + compressed_size }

/-- src/src/main.rs:85-91. -/
def add_kept_original_audio (s : CompressionStats) (size : Nat) : CompressionStats :=
  { s with audio_kept_original := s.audio_kept_original + 1,
           audio_original_size := s.audio_original_size + size,
           audio_compressed_size := s.audio_compressed_size + size,
           total_input_size := s.total_input_size + size,
           total_output_size := s.total_output_size + size }

/-- src/src/main.rs:93-99. -/
def add_skipped_audio (s : CompressionStats) (size : Nat) : CompressionStats :=
  { s with audio_skipped := s.audio_skipped + 1,
           audio_original_size := s.audio_original_size + size,
           audio_compressed_size := s.audio_compressed_size + size,
           total_input_size := s.total_input_size + size,
           total_output_size := s.total_output_size + size }

/-- src/src/main.rs:102-108. -/
def add_processed_video (s : CompressionStats) (original_size compressed_size : Nat) :
    CompressionStats :=
  { s with video_processed := s.video_processed + 1,
           video_original_size := s.video_original_size + original_size,
           video_compressed_size := s.video_compressed_size + compressed_size,
           total_input_size := s.total_input_size + original_size,
           total_output_size := s.total_output_size + compressed_size }

/-- src/src/main.rs:110-116. -/
def add_kept_original_video (s : CompressionStats) (size : Nat) : CompressionStats :=
  { s with video_kept_original := s.video_kept_original + 1,
           video_original_size := s.video_original_size + size,
           video_compressed_size := s.video_compressed_size + size,
           total_input_size := s.total_input_size + size,
           total_output_size := s.total_output_size + size }

/-- src/src/main.rs:118-124. -/
def add_skipped_video (s : CompressionStats) (size : Nat) : CompressionStats :=
  { s with video_skipped := s.video_skipped + 1,
           video_original_size := s.video_original_size + size,
           video_compressed_size := s.video_compressed_size + size,
           total_input_size := s.total_input_size + size,
           total_output_size := s.total_output_size + size }

/-- src/src/main.rs:127-130. -/
def add_other_file (s : CompressionStats) (size : Nat) : CompressionStats :=
  { s with total_input_size := s.total_input_size + size,
           total_output_size := s.total_output_size + size }

/-- src/src/main.rs:132-134. -/
def add_updated_refs (s : CompressionStats) (count : Nat) : CompressionStats :=
  { s with total_updated_refs := s.total_updated_refs + count }

end CompressionStats

/-! ### The pipeline (fn `compress_pack`, src/src/main.rs:446-1144) -/

/-- One archive entry: name and payload as read from the source archive. -/
structure Entry where
  path : Str
  data : Str
  deriving DecidableEq, Repr

/-- The configuration reaching the stream loop: the CLI parameters of
`compress_pack` plus the once-per-run `ffmpeg_available` capability boolean
resolved at src/src/main.rs:490-519. -/
structure Config where
  image_quality : Nat
  audio_quality : Nat
  video_quality : Nat
  skip_image : Bool
  skip_audio : Bool
  skip_video : Bool
  ffmpeg_available : Bool
  always_compress : Bool
  deriving Repr

/-- The mutable run state owned by the orchestrator: statistics, the rename
registry (`image_conversions`), the buffered manifest (`content_xml_data`),
and the sequence of entries written to the destination archive so far. -/
structure RunState where
  stats : CompressionStats := {}
  image_conversions : List (Str × Str) := []
  content_xml_data : Option Str := none
  written : List (Str × Str) := []
  deriving DecidableEq, Repr

/-- The empty state before the stream loop (src/src/main.rs:544-548). -/
def initialState : RunState := {}

/-- `HashMap::insert` on the rename registry: unique keys, last write wins.
Insertion order is kept for iteration (see the header note on `HashMap`
iteration order). -/
def insertConv (m : List (Str × Str)) (k v : Str) : List (Str × Str) :=
  if m.any (fun kv => kv.1 = k) then
    m.map (fun kv => if kv.1 = k then (k, v) else kv)
  else m ++ [(k, v)]

/-- One iteration of the stream loop (src/src/main.rs:559-925): classify the
entry by the flags of lines 564-568, then run the matching branch —
buffering the manifest, compressing media and applying the accept test
`compressed_size >= original_size && !always_compress`, falling back to the
original bytes on codec failure or skip flags, and passing everything else
through unchanged. -/
def processEntry (cfg : Config) (C : Codecs) (st : RunState) (e : Entry) :
    RunState :=
  let file_name := e.path
  if file_name = contentXmlName then
    -- lines 572-584: buffer content.xml, count its size, write nothing yet
    { st with stats := st.stats.add_other_file e.data.length,
              content_xml_data := some e.data }
  else if isImageEntryName file_name && !cfg.skip_image then
    -- lines 585-667
    match compress_image_file C e.data file_name cfg.image_quality with
    | some (compressed_data, original_size, compressed_size) =>
      if compressed_size ≥ original_size ∧ cfg.always_compress = false then
        -- lines 594-613: keep original
        { st with written := st.written ++ [(file_name, e.data)],
                  stats := st.stats.add_kept_original_image original_size }
      else
        -- lines 614-648: accept, rename to the webp filename, record it
        let webp_filename := to_webp_filename file_name
        { st with written := st.written ++ [(webp_filename, compressed_data)],
                  image_conversions :=
                    insertConv st.image_conversions file_name webp_filename,
                  stats := st.stats.add_processed_image original_size compressed_size }
    | none =>
      -- lines 650-666: compression failed, copy original, count skipped
      { st with written := st.written ++ [(file_name, e.data)],
                stats := st.stats.add_skipped_image e.data.length }
  else if isImageEntryName file_name && cfg.skip_image then
    -- lines 668-693: skip flag, copy original, count skipped
    { st with written := st.written ++ [(file_name, e.data)],
              stats := st.stats.add_skipped_image e.data.length }
  else if isAudioEntryName file_name && !cfg.skip_audio then
    -- lines 694-770
    match compress_audio_file C e.data file_name cfg.audio_quality with
    | some (compressed_data, original_size, compressed_size) =>
      if compressed_size ≥ original_size ∧ cfg.always_compress = false then
        -- lines 707-724: keep original
        { st with written := st.written ++ [(file_name, e.data)],
                  stats := st.stats.add_kept_original_audio original_size }
      else
        -- lines 725-753: accept (same path, audio never renames)
        { st with written := st.written ++ [(file_name, compressed_data)],
                  stats := st.stats.add_processed_audio original_size compressed_size }
    | none =>
      -- lines 755-769: compression failed, copy original, count skipped
      { st with written := st.written ++ [(file_name, e.data)],
                stats := st.stats.add_skipped_audio e.data.length }
  else if isAudioEntryName file_name && cfg.skip_audio then
    -- lines 771-792: skip flag, copy original, count skipped
    { st with written := st.written ++ [(file_name, e.data)],
              stats := st.stats.add_skipped_audio e.data.length }
  else if isVideoEntryName file_name then
    -- lines 793-906
    if cfg.skip_video || !cfg.ffmpeg_available then
      -- lines 799-820: skip flag or no encoder, copy original, count skipped
      { st with written := st.written ++ [(file_name, e.data)],
                stats := st.stats.add_skipped_video e.data.length }
    else
      match compress_video_file C e.data file_name cfg.video_quality with
      | some (compressed_data, original_size, compressed_size) =>
        if compressed_size ≥ original_size ∧ cfg.always_compress = false then
          -- lines 838-855: keep original
          { st with written := st.written ++ [(file_name, e.data)],
                    stats := st.stats.add_kept_original_video original_size }
        else
          -- lines 856-884: accept (same path, video never renames)
          { st with written := st.written ++ [(file_name, compressed_data)],
                    stats := st.stats.add_processed_video original_size compressed_size }
      | none =>
        -- lines 886-904: compression failed, copy original, count skipped
        { st with written := st.written ++ [(file_name, e.data)],
                  stats := st.stats.add_skipped_video e.data.length }
  else
    -- lines 907-921: other files copied unchanged
    { st with written := st.written ++ [(file_name, e.data)],
              stats := st.stats.add_other_file e.data.length }

/-! ### The manifest reference rewriter (src/src/main.rs:928-1019) -/

/-- `strip_prefix("Images/").unwrap_or(..)` (src/src/main.rs:936-939). -/
def stripImagesDir (s : Str) : Str :=
  if (s2l "Images/").isPrefixOf s then s.drop (s2l "Images/").length else s

/-- The three encoding variants of a bare filename
(src/src/main.rs:942-956). -/
def variants (s : Str) : List Str :=
  [s, percentDecode s, percentEncode s]

/-- The six context patterns for one (old-variant, new-variant) pair
(src/src/main.rs:964-992). -/
def contextPatterns (orig_var webp_var : Str) : List (Str × Str) :=
  [ (orig_var, webp_var),
    (s2l "isRef=\"True\">" ++ orig_var, s2l "isRef=\"True\">" ++ webp_var),
    (s2l "type=\"image\" isRef=\"True\">" ++ orig_var,
      s2l "type=\"image\" isRef=\"True\">" ++ webp_var),
    (s2l "isRef=\x27True\x27>" ++ orig_var, s2l "isRef=\x27True\x27>" ++ webp_var),
    (s2l "Images/" ++ orig_var, s2l "Images/" ++ webp_var),
    (s2l "isRef=\"True\">Images/" ++ orig_var,
      s2l "isRef=\"True\">Images/" ++ webp_var) ]

/-- All (old, new) pattern pairs generated for one rename record, in the
iteration order of the nested loops at src/src/main.rs:961-992: old variant
outermost, new variant next, context pattern innermost. -/
def recPatterns (rec : Str × Str) : List (Str × Str) :=
  let original_filename := stripImagesDir rec.1
  let webp_filename := stripImagesDir rec.2
  (variants original_filename).flatMap fun orig_var =>
    (variants webp_filename).flatMap fun webp_var =>
      contextPatterns orig_var webp_var

/-- One pattern step (src/src/main.rs:994-1002): when the two patterns
differ and the old one occurs, replace every occurrence and add the
occurrence count to the running tally. -/
def applyPattern (acc : Str × Nat) (p : Str × Str) : Str × Nat :=
  if p.1 ≠ p.2 then
    let count := countOccs p.1 acc.1
    if 0 < count then (replaceAll p.1 p.2 acc.1, acc.2 + count) else acc
  else acc

/-- Process one rename record (src/src/main.rs:934-1018): run every
generated pattern pair over the manifest text, returning the patched text
and this record's replacement tally (`file_replacements`). -/
def applyRecord (xml : Str) (rec : Str × Str) : Str × Nat :=
  (recPatterns rec).foldl applyPattern (xml, 0)

/-- The full rewrite pass (src/src/main.rs:931-1019): fold the rename
records over the manifest text, summing per-record tallies into
`updated_refs`. -/
def rewriteXml (conversions : List (Str × Str)) (xml : Str) : Str × Nat :=
  conversions.foldl
    (fun acc rec =>
      let r := applyRecord acc.1 rec
      (r.1, acc.2 + r.2))
    (xml, 0)

/-- The finalize phase (src/src/main.rs:928-1039): if a manifest was
buffered, rewrite it with the full rename registry, write it (last), and
record the reference statistic; otherwise only a warning is logged. -/
def finalizeRun (st : RunState) : RunState :=
  match st.content_xml_data with
  | some xml_content =>
    let r := rewriteXml st.image_conversions xml_content
    { st with written := st.written ++ [(contentXmlName, r.1)],
              stats := st.stats.add_updated_refs r.2 }
  | none => st

/-- The whole streamed run: the entry loop followed by the finalize phase
(src/src/main.rs:559-1043). -/
def runPack (cfg : Config) (C : Codecs) (entries : List Entry) : RunState :=
  finalizeRun (entries.foldl (processEntry cfg C) initialState)

/-- The one-time capability warning of src/src/main.rs:506-516: emitted
once, before the stream loop, when ffmpeg was not found and video is not
being skipped — never per file. -/
def runCapabilityWarnings (cfg : Config) : Nat :=
  if cfg.ffmpeg_available = false ∧ cfg.skip_video = false then 1 else 0

/-- `(1..=100).contains(&quality)` (src/src/main.rs:522-529). -/
def qualityInRange (q : Nat) : Bool := 1 ≤ q ∧ q ≤ 100

/-- The configuration errors of the quality validation stage
(src/src/main.rs:521-530). -/
inductive ConfigError
  | imageQualityRange
  | audioQualityRange
  | videoQualityRange
  deriving DecidableEq, Repr

/-- Externally visible effects of a run, in order. -/
inductive RunEvent
  | openedSource
  | createdDest
  | readEntry (p : Str)
  deriving DecidableEq, Repr

/-- `compress_pack` from the quality validation on (src/src/main.rs:521-1043)
with its filesystem effects as an explicit trace: validation happens first
(lines 521-530) and on failure nothing else runs; only then is the source
archive opened (533-536), the destination created (539-541), and each entry
read and processed in turn (559-925).  The earlier input-existence and
`.siq`-extension checks and the ffmpeg probe (459-519) touch only the
filesystem metadata and PATH, never the archives, and are not modeled. -/
def compress_pack (cfg : Config) (C : Codecs) (entries : List Entry) :
    List RunEvent × Except ConfigError RunState :=
  if !qualityInRange cfg.image_quality then ([], .error .imageQualityRange)
  else if !qualityInRange cfg.audio_quality then ([], .error .audioQualityRange)
  else if !qualityInRange cfg.video_quality then ([], .error .videoQualityRange)
  else
    ([.openedSource, .createdDest] ++ entries.map (fun e => .readEntry e.path),
      .ok (runPack cfg C entries))

/-! ### Derived observations and helper lemmas -/

/-- The destination-archive writes produced by one entry: nothing for the
manifest (deferred), exactly one entry otherwise.  Mirrors the branch
structure of `processEntry`, and is proved against it below. -/
def entryWrite (cfg : Config) (C : Codecs) (e : Entry) : List (Str × Str) :=
  let file_name := e.path
  if file_name = contentXmlName then []
  else if isImageEntryName file_name && !cfg.skip_image then
    match compress_image_file C e.data file_name cfg.image_quality with
    | some (compressed_data, original_size, compressed_size) =>
      if compressed_size ≥ original_size ∧ cfg.always_compress = false then
        [(file_name, e.data)]
      else [(to_webp_filename file_name, compressed_data)]
    | none => [(file_name, e.data)]
  else if isImageEntryName file_name && cfg.skip_image then [(file_name, e.data)]
  else if isAudioEntryName file_name && !cfg.skip_audio then
    match compress_audio_file C e.data file_name cfg.audio_quality with
    | some (compressed_data, original_size, compressed_size) =>
      if compressed_size ≥ original_size ∧ cfg.always_compress = false then
        [(file_name, e.data)]
      else [(file_name, compressed_data)]
    | none => [(file_name, e.data)]
  else if isAudioEntryName file_name && cfg.skip_audio then [(file_name, e.data)]
  else if isVideoEntryName file_name then
    if cfg.skip_video || !cfg.ffmpeg_available then [(file_name, e.data)]
    else
      match compress_video_file C e.data file_name cfg.video_quality with
      | some (compressed_data, original_size, compressed_size) =>
        if compressed_size ≥ original_size ∧ cfg.always_compress = false then
          [(file_name, e.data)]
        else [(file_name, compressed_data)]
      | none => [(file_name, e.data)]
  else [(file_name, e.data)]

/-- The path under which a non-manifest entry is written: its own path,
except an accepted image replacement, which goes to the webp filename. -/
def outPath (cfg : Config) (C : Codecs) (e : Entry) : Str :=
  if isImageEntryName e.path && !cfg.skip_image then
    match compress_image_file C e.data e.path cfg.image_quality with
    | some (_, original_size, compressed_size) =>
      if compressed_size ≥ original_size ∧ cfg.always_compress = false then e.path
      else to_webp_filename e.path
    | none => e.path
  else e.path

/-- Total byte length of a list of written entries. -/
def sumSizes (ws : List (Str × Str)) : Nat := (ws.map (fun w => w.2.length)).sum

/-- Total byte length of the manifest entries of an archive as read. -/
def manifestBytes (entries : List Entry) : Nat :=
  ((entries.filter (fun e => e.path = contentXmlName)).map
    (fun e => e.data.length)).sum

lemma compress_image_file_sizes {C : Codecs} {d fn : Str} {q : Nat}
    {cd : Str} {os cs : Nat}
    (h : compress_image_file C d fn q = some (cd, os, cs)) :
    os = d.length ∧ cs = cd.length := by
  unfold compress_image_file at h
  rcases hf : detect_image_format fn with _ | fmt <;> rw [hf] at h
  · exact absurd h (by simp)
  rcases hd : C.imgDecode d with _ | img <;> rw [hd] at h
  · exact absurd h (by simp)
  rcases he : (match fmt with
    | .jpeg => C.jpegEncode img q
    | .png => C.pngEncode img (pngCompressionType q)
    | .webp => some (if 95 ≤ q then C.webpLossless img else C.webpLossy img q)) with _ | out
  · simp only [he] at h
    exact absurd h (by simp)
  · simp only [he, Option.some.injEq, Prod.mk.injEq] at h
    exact ⟨h.2.1.symm, h.1 ▸ h.2.2.symm⟩

lemma compress_audio_file_sizes {C : Codecs} {d fn : Str} {q : Nat}
    {cd : Str} {os cs : Nat}
    (h : compress_audio_file C d fn q = some (cd, os, cs)) :
    os = d.length ∧ cs = cd.length := by
  unfold compress_audio_file at h
  split at h
  · rcases he : C.mp3Compress d q with _ | out <;> rw [he] at h
    · exact absurd h (by simp)
    · simp only [Option.some.injEq, Prod.mk.injEq] at h
      exact ⟨h.2.1.symm, by simp [← h.1, ← h.2.2]⟩
  · exact absurd h (by simp)

lemma compress_video_file_sizes {C : Codecs} {d fn : Str} {q : Nat}
    {cd : Str} {os cs : Nat}
    (h : compress_video_file C d fn q = some (cd, os, cs)) :
    os = d.length ∧ cs = cd.length := by
  unfold compress_video_file at h
  split at h
  · rcases he : C.videoEncode d q with _ | out <;> rw [he] at h
    · exact absurd h (by simp)
    · simp only [Option.some.injEq, Prod.mk.injEq] at h
      exact ⟨h.2.1.symm, by simp [← h.1, ← h.2.2]⟩
  · exact absurd h (by simp)

lemma prefix_head {a : Char} {l p : Str} (h : (a :: l).isPrefixOf p = true) :
    ∃ rest, p = a :: rest := by
  cases p with
  | nil => simp [List.isPrefixOf] at h
  | cons b bs =>
    refine ⟨bs, ?_⟩
    have hab : a == b := by
      by_contra hab
      simp [List.isPrefixOf, Bool.and_eq_true] at h
      exact hab (by simp [h.1])
    simp [show a = b from by simpa using hab]

lemma image_ne_manifest {p : Str} (h : isImageEntryName p = true) :
    p ≠ contentXmlName := by
  intro hp; rw [hp] at h; exact absurd h (by decide)

lemma audio_ne_manifest {p : Str} (h : isAudioEntryName p = true) :
    p ≠ contentXmlName := by
  intro hp; rw [hp] at h; exact absurd h (by decide)

lemma video_ne_manifest {p : Str} (h : isVideoEntryName p = true) :
    p ≠ contentXmlName := by
  intro hp; rw [hp] at h; exact absurd h (by decide)

lemma audio_not_image {p : Str} (h : isAudioEntryName p = true) :
    isImageEntryName p = false := by
  have hp : (s2l "Audio/").isPrefixOf p = true := by
    unfold isAudioEntryName at h
    exact (Bool.and_eq_true _ _ ▸ h).1
  obtain ⟨rest, rfl⟩ := prefix_head (a := 'A') (l := s2l "udio/") hp
  show ((s2l "Images/").isPrefixOf ('A' :: rest) && is_supported_image ('A' :: rest)) = false
  have h1 : (s2l "Images/").isPrefixOf ('A' :: rest) = false := rfl
  rw [h1, Bool.false_and]

lemma video_not_image {p : Str} (h : isVideoEntryName p = true) :
    isImageEntryName p = false := by
  have hp : (s2l "Video/").isPrefixOf p = true := by
    unfold isVideoEntryName at h
    exact (Bool.and_eq_true _ _ ▸ h).1
  obtain ⟨rest, rfl⟩ := prefix_head (a := 'V') (l := s2l "ideo/") hp
  show ((s2l "Images/").isPrefixOf ('V' :: rest) && is_supported_image ('V' :: rest)) = false
  have h1 : (s2l "Images/").isPrefixOf ('V' :: rest) = false := rfl
  rw [h1, Bool.false_and]

lemma video_not_audio {p : Str} (h : isVideoEntryName p = true) :
    isAudioEntryName p = false := by
  have hp : (s2l "Video/").isPrefixOf p = true := by
    unfold isVideoEntryName at h
    exact (Bool.and_eq_true _ _ ▸ h).1
  obtain ⟨rest, rfl⟩ := prefix_head (a := 'V') (l := s2l "ideo/") hp
  show ((s2l "Audio/").isPrefixOf ('V' :: rest) && is_supported_audio ('V' :: rest)) = false
  have h1 : (s2l "Audio/").isPrefixOf ('V' :: rest) = false := rfl
  rw [h1, Bool.false_and]

/-! Branch reduction lemmas for `processEntry`, one per source branch. -/

lemma processEntry_manifest (cfg : Config) (C : Codecs) (st : RunState) (e : Entry)
    (h : e.path = contentXmlName) :
    processEntry cfg C st e =
      { st with stats := st.stats.add_other_file e.data.length,
                content_xml_data := some e.data } := by
  unfold processEntry
  rw [if_pos h]

lemma processEntry_image_some (cfg : Config) (C : Codecs) (st : RunState) (e : Entry)
    (cd : Str) (os cs : Nat)
    (himg : isImageEntryName e.path = true) (hskip : cfg.skip_image = false)
    (hc : compress_image_file C e.data e.path cfg.image_quality = some (cd, os, cs)) :
    processEntry cfg C st e =
      if cs ≥ os ∧ cfg.always_compress = false then
        { st with written := st.written ++ [(e.path, e.data)],
                  stats := st.stats.add_kept_original_image os }
      else
        { st with written := st.written ++ [(to_webp_filename e.path, cd)],
                  image_conversions :=
                    insertConv st.image_conversions e.path (to_webp_filename e.path),
                  stats := st.stats.add_processed_image os cs } := by
  unfold processEntry
  rw [if_neg (image_ne_manifest himg)]
  rw [himg, hskip]
  simp [hc]

lemma processEntry_image_none (cfg : Config) (C : Codecs) (st : RunState) (e : Entry)
    (himg : isImageEntryName e.path = true) (hskip : cfg.skip_image = false)
    (hc : compress_image_file C e.data e.path cfg.image_quality = none) :
    processEntry cfg C st e =
      { st with written := st.written ++ [(e.path, e.data)],
                stats := st.stats.add_skipped_image e.data.length } := by
  unfold processEntry
  rw [if_neg (image_ne_manifest himg)]
  rw [himg, hskip]
  simp [hc]

lemma processEntry_image_skipflag (cfg : Config) (C : Codecs) (st : RunState) (e : Entry)
    (himg : isImageEntryName e.path = true) (hskip : cfg.skip_image = true) :
    processEntry cfg C st e =
      { st with written := st.written ++ [(e.path, e.data)],
                stats := st.stats.add_skipped_image e.data.length } := by
  unfold processEntry
  rw [if_neg (image_ne_manifest himg)]
  rw [himg, hskip]
  simp

lemma processEntry_audio_some (cfg : Config) (C : Codecs) (st : RunState) (e : Entry)
    (cd : Str) (os cs : Nat)
    (haud : isAudioEntryName e.path = true) (hskip : cfg.skip_audio = false)
    (hc : compress_audio_file C e.data e.path cfg.audio_quality = some (cd, os, cs)) :
    processEntry cfg C st e =
      if cs ≥ os ∧ cfg.always_compress = false then
        { st with written := st.written ++ [(e.path, e.data)],
                  stats := st.stats.add_kept_original_audio os }
      else
        { st with written := st.written ++ [(e.path, cd)],
                  stats := st.stats.add_processed_audio os cs } := by
  unfold processEntry
  rw [if_neg (audio_ne_manifest haud)]
  rw [haud, hskip, audio_not_image haud]
  simp [hc]

lemma processEntry_audio_none (cfg : Config) (C : Codecs) (st : RunState) (e : Entry)
    (haud : isAudioEntryName e.path = true) (hskip : cfg.skip_audio = false)
    (hc : compress_audio_file C e.data e.path cfg.audio_quality = none) :
    processEntry cfg C st e =
      { st with written := st.written ++ [(e.path, e.data)],
                stats := st.stats.add_skipped_audio e.data.length } := by
  unfold processEntry
  rw [if_neg (audio_ne_manifest haud)]
  rw [haud, hskip, audio_not_image haud]
  simp [hc]

lemma processEntry_audio_skipflag (cfg : Config) (C : Codecs) (st : RunState) (e : Entry)
    (haud : isAudioEntryName e.path = true) (hskip : cfg.skip_audio = true) :
    processEntry cfg C st e =
      { st with written := st.written ++ [(e.path, e.data)],
                stats := st.stats.add_skipped_audio e.data.length } := by
  unfold processEntry
  rw [if_neg (audio_ne_manifest haud)]
  rw [haud, hskip, audio_not_image haud]
  simp

lemma processEntry_video_unavailable (cfg : Config) (C : Codecs) (st : RunState) (e : Entry)
    (hvid : isVideoEntryName e.path = true)
    (hcond : (cfg.skip_video || !cfg.ffmpeg_available) = true) :
    processEntry cfg C st e =
      { st with written := st.written ++ [(e.path, e.data)],
                stats := st.stats.add_skipped_video e.data.length } := by
  unfold processEntry
  rw [if_neg (video_ne_manifest hvid)]
  rw [hvid, video_not_image hvid, video_not_audio hvid]
  simp [hcond]

lemma processEntry_video_some (cfg : Config) (C : Codecs) (st : RunState) (e : Entry)
    (cd : Str) (os cs : Nat)
    (hvid : isVideoEntryName e.path = true)
    (hcond : (cfg.skip_video || !cfg.ffmpeg_available) = false)
    (hc : compress_video_file C e.data e.path cfg.video_quality = some (cd, os, cs)) :
    processEntry cfg C st e =
      if cs ≥ os ∧ cfg.always_compress = false then
        { st with written := st.written ++ [(e.path, e.data)],
                  stats := st.stats.add_kept_original_video os }
      else
        { st with written := st.written ++ [(e.path, cd)],
                  stats := st.stats.add_processed_video os cs } := by
  unfold processEntry
  rw [if_neg (video_ne_manifest hvid)]
  rw [hvid, video_not_image hvid, video_not_audio hvid]
  simp [hcond, hc]

lemma processEntry_video_none (cfg : Config) (C : Codecs) (st : RunState) (e : Entry)
    (hvid : isVideoEntryName e.path = true)
    (hcond : (cfg.skip_video || !cfg.ffmpeg_available) = false)
    (hc : compress_video_file C e.data e.path cfg.video_quality = none) :
    processEntry cfg C st e =
      { st with written := st.written ++ [(e.path, e.data)],
                stats := st.stats.add_skipped_video e.data.length } := by
  unfold processEntry
  rw [if_neg (video_ne_manifest hvid)]
  rw [hvid, video_not_image hvid, video_not_audio hvid]
  simp [hcond, hc]

lemma processEntry_other (cfg : Config) (C : Codecs) (st : RunState) (e : Entry)
    (hm : e.path ≠ contentXmlName)
    (hi : isImageEntryName e.path = false)
    (ha : isAudioEntryName e.path = false)
    (hv : isVideoEntryName e.path = false) :
    processEntry cfg C st e =
      { st with written := st.written ++ [(e.path, e.data)],
                stats := st.stats.add_other_file e.data.length } := by
  unfold processEntry
  rw [if_neg hm]
  rw [hi, ha, hv]
  simp
lemma entryWrite_image_some (cfg : Config) (C : Codecs) (e : Entry)
    (cd : Str) (os cs : Nat)
    (himg : isImageEntryName e.path = true) (hskip : cfg.skip_image = false)
    (hc : compress_image_file C e.data e.path cfg.image_quality = some (cd, os, cs)) :
    entryWrite cfg C e =
      if cs ≥ os ∧ cfg.always_compress = false then [(e.path, e.data)]
      else [(to_webp_filename e.path, cd)] := by
  unfold entryWrite
  rw [if_neg (image_ne_manifest himg)]
  rw [himg, hskip]
  simp [hc]

lemma entryWrite_audio_some (cfg : Config) (C : Codecs) (e : Entry)
    (cd : Str) (os cs : Nat)
    (haud : isAudioEntryName e.path = true) (hskip : cfg.skip_audio = false)
    (hc : compress_audio_file C e.data e.path cfg.audio_quality = some (cd, os, cs)) :
    entryWrite cfg C e =
      if cs ≥ os ∧ cfg.always_compress = false then [(e.path, e.data)]
      else [(e.path, cd)] := by
  unfold entryWrite
  rw [if_neg (audio_ne_manifest haud)]
  rw [haud, hskip, audio_not_image haud]
  simp [hc]

lemma entryWrite_video_some (cfg : Config) (C : Codecs) (e : Entry)
    (cd : Str) (os cs : Nat)
    (hvid : isVideoEntryName e.path = true)
    (hcond : (cfg.skip_video || !cfg.ffmpeg_available) = false)
    (hc : compress_video_file C e.data e.path cfg.video_quality = some (cd, os, cs)) :
    entryWrite cfg C e =
      if cs ≥ os ∧ cfg.always_compress = false then [(e.path, e.data)]
      else [(e.path, cd)] := by
  unfold entryWrite
  rw [if_neg (video_ne_manifest hvid)]
  rw [hvid, video_not_image hvid, video_not_audio hvid]
  simp [hcond, hc]

lemma processEntry_observe (cfg : Config) (C : Codecs) (st : RunState) (e : Entry) :
    (processEntry cfg C st e).written = st.written ++ entryWrite cfg C e ∧
    (processEntry cfg C st e).content_xml_data =
      (if e.path = contentXmlName then some e.data else st.content_xml_data) ∧
    (processEntry cfg C st e).stats.total_output_size =
      st.stats.total_output_size + sumSizes (entryWrite cfg C e) +
        (if e.path = contentXmlName then e.data.length else 0) := by
  by_cases hm : e.path = contentXmlName
  · rw [processEntry_manifest cfg C st e hm]
    simp [entryWrite, sumSizes, hm, CompressionStats.add_other_file]
  · by_cases himg : isImageEntryName e.path = true
    · by_cases hskip : cfg.skip_image = true
      · rw [processEntry_image_skipflag cfg C st e himg hskip]
        simp [entryWrite, sumSizes, hm, himg, hskip, CompressionStats.add_skipped_image]
      · have hskip' : cfg.skip_image = false := by simpa using hskip
        rcases hc : compress_image_file C e.data e.path cfg.image_quality with _ | ⟨cd, os, cs⟩
        · rw [processEntry_image_none cfg C st e himg hskip' hc]
          simp [entryWrite, sumSizes, hm, himg, hskip', hc,
            CompressionStats.add_skipped_image]
        · obtain ⟨hos, hcs⟩ := compress_image_file_sizes hc
          rw [processEntry_image_some cfg C st e cd os cs himg hskip' hc,
            entryWrite_image_some cfg C e cd os cs himg hskip' hc]
          by_cases hcond : cs ≥ os ∧ cfg.always_compress = false
          · rw [if_pos hcond, if_pos hcond]
            simp [sumSizes, hm, hos, CompressionStats.add_kept_original_image]
          · rw [if_neg hcond, if_neg hcond]
            simp [sumSizes, hm, hcs, CompressionStats.add_processed_image]
    · have himg' : isImageEntryName e.path = false := by simpa using himg
      by_cases haud : isAudioEntryName e.path = true
      · by_cases hskip : cfg.skip_audio = true
        · rw [processEntry_audio_skipflag cfg C st e haud hskip]
          simp [entryWrite, sumSizes, hm, himg', haud, hskip,
            CompressionStats.add_skipped_audio]
        · have hskip' : cfg.skip_audio = false := by simpa using hskip
          rcases hc : compress_audio_file C e.data e.path cfg.audio_quality with _ | ⟨cd, os, cs⟩
          · rw [processEntry_audio_none cfg C st e haud hskip' hc]
            simp [entryWrite, sumSizes, hm, himg', haud, hskip', hc,
              CompressionStats.add_skipped_audio]
          · obtain ⟨hos, hcs⟩ := compress_audio_file_sizes hc
            rw [processEntry_audio_some cfg C st e cd os cs haud hskip' hc,
              entryWrite_audio_some cfg C e cd os cs haud hskip' hc]
            by_cases hcond : cs ≥ os ∧ cfg.always_compress = false
            · rw [if_pos hcond, if_pos hcond]
              simp [sumSizes, hm, hos, CompressionStats.add_kept_original_audio]
            · rw [if_neg hcond, if_neg hcond]
              simp [sumSizes, hm, hcs, CompressionStats.add_processed_audio]
      · have haud' : isAudioEntryName e.path = false := by simpa using haud
        by_cases hvid : isVideoEntryName e.path = true
        · by_cases hcond : (cfg.skip_video || !cfg.ffmpeg_available) = true
          · rw [processEntry_video_unavailable cfg C st e hvid hcond]
            simp [entryWrite, sumSizes, hm, himg', haud', hvid, hcond,
              CompressionStats.add_skipped_video]
          · have hcond' : (cfg.skip_video || !cfg.ffmpeg_available) = false := by
              simpa using hcond
            rcases hc : compress_video_file C e.data e.path cfg.video_quality with _ | ⟨cd, os, cs⟩
            · rw [processEntry_video_none cfg C st e hvid hcond' hc]
              simp [entryWrite, sumSizes, hm, himg', haud', hvid, hcond', hc,
                CompressionStats.add_skipped_video]
            · obtain ⟨hos, hcs⟩ := compress_video_file_sizes hc
              rw [processEntry_video_some cfg C st e cd os cs hvid hcond' hc,
                entryWrite_video_some cfg C e cd os cs hvid hcond' hc]
              by_cases hacc : cs ≥ os ∧ cfg.always_compress = false
              · rw [if_pos hacc, if_pos hacc]
                simp [sumSizes, hm, hos, CompressionStats.add_kept_original_video]
              · rw [if_neg hacc, if_neg hacc]
                simp [sumSizes, hm, hcs, CompressionStats.add_processed_video]
        · have hvid' : isVideoEntryName e.path = false := by simpa using hvid
          rw [processEntry_other cfg C st e hm himg' haud' hvid']
          simp [entryWrite, sumSizes, hm, himg', haud', hvid',
            CompressionStats.add_other_file]

lemma entryWrite_manifest (cfg : Config) (C : Codecs) (e : Entry)
    (h : e.path = contentXmlName) : entryWrite cfg C e = [] := by
  unfold entryWrite
  rw [if_pos h]

lemma entryWrite_paths (cfg : Config) (C : Codecs) (e : Entry)
    (hm : e.path ≠ contentXmlName) :
    (entryWrite cfg C e).map (fun w => w.1) = [outPath cfg C e] := by
  by_cases himg : isImageEntryName e.path = true
  · by_cases hskip : cfg.skip_image = true
    · simp [entryWrite, outPath, hm, himg, hskip]
    · have hskip' : cfg.skip_image = false := by simpa using hskip
      rcases hc : compress_image_file C e.data e.path cfg.image_quality with _ | ⟨cd, os, cs⟩
      · simp [entryWrite, outPath, hm, himg, hskip', hc]
      · rw [entryWrite_image_some cfg C e cd os cs himg hskip' hc]
        by_cases hcond : cs ≥ os ∧ cfg.always_compress = false
        · simp [outPath, hm, himg, hskip', hc, hcond]
        · simp [outPath, hm, himg, hskip', hc, hcond]
  · have himg' : isImageEntryName e.path = false := by simpa using himg
    by_cases haud : isAudioEntryName e.path = true
    · by_cases hskip : cfg.skip_audio = true
      · simp [entryWrite, outPath, hm, himg', haud, hskip]
      · have hskip' : cfg.skip_audio = false := by simpa using hskip
        rcases hc : compress_audio_file C e.data e.path cfg.audio_quality with _ | ⟨cd, os, cs⟩
        · simp [entryWrite, outPath, hm, himg', haud, hskip', hc]
        · rw [entryWrite_audio_some cfg C e cd os cs haud hskip' hc]
          by_cases hcond : cs ≥ os ∧ cfg.always_compress = false
          · simp [outPath, hm, himg', hcond]
          · simp [outPath, hm, himg', hcond]
    · have haud' : isAudioEntryName e.path = false := by simpa using haud
      by_cases hvid : isVideoEntryName e.path = true
      · by_cases hcond : (cfg.skip_video || !cfg.ffmpeg_available) = true
        · simp [entryWrite, outPath, hm, himg', haud', hvid, hcond]
        · have hcond' : (cfg.skip_video || !cfg.ffmpeg_available) = false := by
            simpa using hcond
          rcases hc : compress_video_file C e.data e.path cfg.video_quality with _ | ⟨cd, os, cs⟩
          · simp [entryWrite, outPath, hm, himg', haud', hvid, hcond', hc]
          · rw [entryWrite_video_some cfg C e cd os cs hvid hcond' hc]
            by_cases hacc : cs ≥ os ∧ cfg.always_compress = false
            · simp [outPath, hm, himg', hacc]
            · simp [outPath, hm, himg', hacc]
      · have hvid' : isVideoEntryName e.path = false := by simpa using hvid
        simp [entryWrite, outPath, hm, himg', haud', hvid']

lemma foldl_written (cfg : Config) (C : Codecs) :
    ∀ (es : List Entry) (st : RunState),
      (es.foldl (processEntry cfg C) st).written =
        st.written ++ es.flatMap (entryWrite cfg C) := by
  intro es
  induction es with
  | nil => intro st; simp
  | cons e rest ih =>
    intro st
    simp only [List.foldl_cons, List.flatMap_cons]
    rw [ih, (processEntry_observe cfg C st e).1, List.append_assoc]

lemma foldl_xml (cfg : Config) (C : Codecs) :
    ∀ (es : List Entry) (st : RunState),
      (es.foldl (processEntry cfg C) st).content_xml_data =
        es.foldl (fun acc e => if e.path = contentXmlName then some e.data else acc)
          st.content_xml_data := by
  intro es
  induction es with
  | nil => intro st; simp
  | cons e rest ih =>
    intro st
    simp only [List.foldl_cons]
    rw [ih, (processEntry_observe cfg C st e).2.1]

lemma xmlFold_isSome :
    ∀ (es : List Entry) (o : Option Str),
      (es.foldl (fun acc e => if e.path = contentXmlName then some e.data else acc)
        o).isSome =
      (o.isSome || es.any (fun e => e.path = contentXmlName)) := by
  intro es
  induction es with
  | nil => intro o; simp
  | cons e rest ih =>
    intro o
    simp only [List.foldl_cons, List.any_cons]
    rw [ih]
    by_cases h : e.path = contentXmlName <;> simp [h]

lemma foldl_total_output (cfg : Config) (C : Codecs) :
    ∀ (es : List Entry) (st : RunState),
      (es.foldl (processEntry cfg C) st).stats.total_output_size =
        st.stats.total_output_size + sumSizes (es.flatMap (entryWrite cfg C)) +
          manifestBytes es := by
  intro es
  induction es with
  | nil => intro st; simp [sumSizes, manifestBytes]
  | cons e rest ih =>
    intro st
    simp only [List.foldl_cons, List.flatMap_cons]
    rw [ih, (processEntry_observe cfg C st e).2.2]
    by_cases h : e.path = contentXmlName
    · simp [h, manifestBytes, sumSizes]
      omega
    · simp [h, manifestBytes, sumSizes]
      omega

lemma flatMap_entryWrite_paths (cfg : Config) (C : Codecs) :
    ∀ es : List Entry,
      (es.flatMap (entryWrite cfg C)).map (fun w => w.1) =
        (es.filter (fun e => e.path ≠ contentXmlName)).map (outPath cfg C) := by
  intro es
  induction es with
  | nil => simp
  | cons e rest ih =>
    simp only [List.flatMap_cons, List.filter_cons, List.map_append]
    by_cases h : e.path = contentXmlName
    · rw [entryWrite_manifest cfg C e h]
      simp [h, ih]
    · rw [if_pos (by simpa using h)]
      simp only [List.map_cons]
      rw [← ih, entryWrite_paths cfg C e h]
      simp
lemma mem_of_getLast {a : Char} {l : Str} (h : l.getLast? = some a) : a ∈ l := by
  rcases List.mem_getLast?_eq_getLast (show a ∈ l.getLast? from h) with ⟨hne, rfl⟩
  exact List.getLast_mem hne

lemma dropWhile_head_false {α : Type} (p : α → Bool) (l : List α) :
    ∀ {d : α} {dtl : List α}, l.dropWhile p = d :: dtl → p d = false := by
  induction l with
  | nil => intro d dtl h; simp [List.dropWhile] at h
  | cons a as ih =>
    intro d dtl h
    by_cases hp : p a
    · rw [List.dropWhile_cons_of_pos hp] at h
      exact ih h
    · rw [List.dropWhile_cons_of_neg hp] at h
      cases h
      simpa using hp

lemma extensionOf_chars {p ex : Str} (h : extensionOf p = some ex) :
    ∀ x ∈ ex, x ≠ '/' ∧ x ≠ '.' := by
  unfold extensionOf at h
  rcases hfn : fileNameOf p with _ | name <;> rw [hfn] at h
  · exact absurd h (by simp)
  · simp only at h
    split at h
    · exact absurd h (by simp)
    · split at h
      · exact absurd h (by simp)
      · intro x hx
        have hx' : x ∈ name.reverse.takeWhile (fun c => c ≠ '.') := by
          have hinj : (name.reverse.takeWhile (fun c => c ≠ '.')).reverse = ex := by
            injection h
          rw [← hinj] at hx
          exact List.mem_reverse.mp hx
        have hdot : x ≠ '.' := by
          have := List.mem_takeWhile_imp hx'
          simpa using this
        have hname : x ∈ name := by
          have h1 : x ∈ name.reverse := (List.takeWhile_prefix _).subset hx'
          exact List.mem_reverse.mp h1
        have hslash : x ≠ '/' := by
          unfold fileNameOf at hfn
          simp only at hfn
          split at hfn
          · exact absurd hfn (by simp)
          · have hinj :
                ((dropTrailingSlashes p).reverse.takeWhile
                  (fun c => c ≠ '/')).reverse = name := by
              injection hfn
            have hname' :
                x ∈ ((dropTrailingSlashes p).reverse.takeWhile
                  (fun c => c ≠ '/')).reverse := by
              rw [hinj]; exact hname
            have := List.mem_takeWhile_imp (List.mem_reverse.mp hname')
            simpa using this
        exact ⟨hslash, hdot⟩

lemma extensionOf_decomp {p ex : Str} (h : extensionOf p = some ex) :
    ∃ b, dropTrailingSlashes p = b ++ '.' :: ex := by
  unfold extensionOf at h
  rcases hfn : fileNameOf p with _ | name <;> rw [hfn] at h
  · exact absurd h (by simp)
  · simp only at h
    split at h
    · exact absurd h (by simp)
    · next hlen =>
      split at h
      · exact absurd h (by simp)
      · have hex : (name.reverse.takeWhile (fun c => c ≠ '.')).reverse = ex := by
          injection h
        have hTD :
            name.reverse.takeWhile (fun c => c ≠ '.') ++
              name.reverse.dropWhile (fun c => c ≠ '.') = name.reverse :=
          List.takeWhile_append_dropWhile _ _
        have hDne : name.reverse.dropWhile (fun c => c ≠ '.') ≠ [] := by
          intro hnil
          rw [hnil, List.append_nil] at hTD
          exact hlen (by rw [hTD, List.length_reverse])
        obtain ⟨d, dtl, hD⟩ := List.exists_cons_of_ne_nil hDne
        have hd : d = '.' := by
          have := dropWhile_head_false (fun c => c ≠ '.') name.reverse hD
          simpa using this
        rw [hD] at hTD
        have h1 : name =
            (name.reverse.takeWhile (fun c => c ≠ '.') ++ d :: dtl).reverse := by
          rw [hTD, List.reverse_reverse]
        rw [List.reverse_append, List.reverse_cons, hex, hd] at h1
        have hname : name = dtl.reverse ++ '.' :: ex := by
          rw [h1]
          simp only [List.append_assoc, List.singleton_append]
        unfold fileNameOf at hfn
        simp only at hfn
        split at hfn
        · exact absurd hfn (by simp)
        · have hq : ((dropTrailingSlashes p).reverse.takeWhile
              (fun c => c ≠ '/')).reverse = name := by
            injection hfn
          have hq2 :
              (dropTrailingSlashes p).reverse.takeWhile (fun c => c ≠ '/') ++
                (dropTrailingSlashes p).reverse.dropWhile (fun c => c ≠ '/') =
              (dropTrailingSlashes p).reverse :=
            List.takeWhile_append_dropWhile _ _
          have hqd : dropTrailingSlashes p =
              ((dropTrailingSlashes p).reverse.dropWhile
                (fun c => c ≠ '/')).reverse ++ name := by
            rw [← hq, ← List.reverse_append, hq2, List.reverse_reverse]
          refine ⟨((dropTrailingSlashes p).reverse.dropWhile
            (fun c => c ≠ '/')).reverse ++ dtl.reverse, hqd.trans ?_⟩
          rw [hname, List.append_assoc]

lemma isPrefixOf_append_ext :
    ∀ (pre b e e' : Str), pre.getLast? = some '/' → '/' ∉ e → '/' ∉ e' →
      pre.isPrefixOf (b ++ e) = pre.isPrefixOf (b ++ e') := by
  intro pre
  induction pre with
  | nil => intro b e e' hlast _ _; simp at hlast
  | cons c ps ih =>
    intro b e e' hlast he he'
    cases b with
    | nil =>
      have hfalse : ∀ x : Str, '/' ∉ x → (c :: ps).isPrefixOf x = false := by
        intro x hx
        by_contra hpf
        have hpf' : (c :: ps).isPrefixOf x = true := by
          cases hb : (c :: ps).isPrefixOf x
          · exact absurd hb hpf
          · rfl
        have hsub : (c :: ps) ⊆ x :=
          (List.isPrefixOf_iff_prefix.mp hpf').subset
        exact hx (hsub (mem_of_getLast hlast))
      rw [List.nil_append, List.nil_append, hfalse e he, hfalse e' he']
    | cons d bs =>
      cases ps with
      | nil =>
        simp only [List.cons_append]
        show (c == d && List.isPrefixOf [] (bs ++ e)) =
          (c == d && List.isPrefixOf [] (bs ++ e'))
        simp [List.isPrefixOf]
      | cons q qs =>
        have hlast' : (q :: qs).getLast? = some '/' := by
          rw [← List.getLast?_cons_cons]
          exact hlast
        simp only [List.cons_append]
        show (c == d && (q :: qs).isPrefixOf (bs ++ e)) =
          (c == d && (q :: qs).isPrefixOf (bs ++ e'))
        rw [ih bs e e' hlast' he he']

/-! ### Concrete fixtures for witnesses and counterexamples -/

/-- Oracles whose every encoder succeeds and shrinks the input to its first
byte. -/
def oracleShrink : Codecs where
  imgDecode := fun d => some d
  jpegEncode := fun img _ => some (img.take 1)
  pngEncode := fun img _ => some (img.take 1)
  webpLossless := fun img => img.take 1
  webpLossy := fun img _ => img.take 1
  mp3Compress := fun d _ => some (d.take 1)
  videoEncode := fun d _ => some (d.take 1)

/-- Oracles whose every codec fails. -/
def oracleFail : Codecs where
  imgDecode := fun _ => none
  jpegEncode := fun _ _ => none
  pngEncode := fun _ _ => none
  webpLossless := fun _ => []
  webpLossy := fun _ _ => []
  mp3Compress := fun _ _ => none
  videoEncode := fun _ _ => none

/-- Baseline configuration: default qualities, nothing skipped, encoder
available, no force flag. -/
def baseConfig : Config :=
  { image_quality := 85, audio_quality := 85, video_quality := 75,
    skip_image := false, skip_audio := false, skip_video := false,
    ffmpeg_available := true, always_compress := false }

/-- The keep-original test of the source
(`compressed_size >= original_size && !always_compress`) is the negation of
the spec's accept rule (`compressedSize < originalSize || forceAccept`). -/
lemma keep_iff (os cs : Nat) (b : Bool) :
    (cs ≥ os ∧ b = false) ↔ ¬(cs < os ∨ b = true) := by
  cases b <;> simp

/-! ### The claims -/

/-- C4: for every media entry of any of the three kinds whose compression
succeeds, the compressed result is written (with the image rename recorded)
iff `compressedSize < originalSize` or the force-accept flag is set, and
otherwise the original bytes are written under the original path — the same
rule, `compressed_size >= original_size && !always_compress` negated, in all
three branches (src/src/main.rs:594-648, 707-753, 838-884). -/
theorem c4_accept_policy (cfg : Config) (C : Codecs) (st : RunState) (e : Entry) :
    (∀ cd os cs, isImageEntryName e.path = true → cfg.skip_image = false →
      compress_image_file C e.data e.path cfg.image_quality = some (cd, os, cs) →
      processEntry cfg C st e =
        if cs < os ∨ cfg.always_compress = true then
          { st with written := st.written ++ [(to_webp_filename e.path, cd)],
                    image_conversions :=
                      insertConv st.image_conversions e.path (to_webp_filename e.path),
                    stats := st.stats.add_processed_image os cs }
        else
          { st with written := st.written ++ [(e.path, e.data)],
                    stats := st.stats.add_kept_original_image os }) ∧
    (∀ cd os cs, isAudioEntryName e.path = true → cfg.skip_audio = false →
      compress_audio_file C e.data e.path cfg.audio_quality = some (cd, os, cs) →
      processEntry cfg C st e =
        if cs < os ∨ cfg.always_compress = true then
          { st with written := st.written ++ [(e.path, cd)],
                    stats := st.stats.add_processed_audio os cs }
        else
          { st with written := st.written ++ [(e.path, e.data)],
                    stats := st.stats.add_kept_original_audio os }) ∧
    (∀ cd os cs, isVideoEntryName e.path = true → cfg.skip_video = false →
      cfg.ffmpeg_available = true →
      compress_video_file C e.data e.path cfg.video_quality = some (cd, os, cs) →
      processEntry cfg C st e =
        if cs < os ∨ cfg.always_compress = true then
          { st with written := st.written ++ [(e.path, cd)],
                    stats := st.stats.add_processed_video os cs }
        else
          { st with written := st.written ++ [(e.path, e.data)],
                    stats := st.stats.add_kept_original_video os }) := by
  refine ⟨?_, ?_, ?_⟩
  · intro cd os cs himg hskip hc
    rw [processEntry_image_some cfg C st e cd os cs himg hskip hc]
    by_cases hacc : cs < os ∨ cfg.always_compress = true
    · rw [if_pos hacc, if_neg (fun hk => (keep_iff os cs _).mp hk hacc)]
    · rw [if_neg hacc, if_pos ((keep_iff os cs _).mpr hacc)]
  · intro cd os cs haud hskip hc
    rw [processEntry_audio_some cfg C st e cd os cs haud hskip hc]
    by_cases hacc : cs < os ∨ cfg.always_compress = true
    · rw [if_pos hacc, if_neg (fun hk => (keep_iff os cs _).mp hk hacc)]
    · rw [if_neg hacc, if_pos ((keep_iff os cs _).mpr hacc)]
  · intro cd os cs hvid hskip hff hc
    rw [processEntry_video_some cfg C st e cd os cs hvid (by rw [hskip, hff]; rfl) hc]
    by_cases hacc : cs < os ∨ cfg.always_compress = true
    · rw [if_pos hacc, if_neg (fun hk => (keep_iff os cs _).mp hk hacc)]
    · rw [if_neg hacc, if_pos ((keep_iff os cs _).mpr hacc)]

/-- Witness for C4: a JPEG that shrinks from two bytes to one is accepted
and renamed; an MP3 that would stay the same size is kept as the original. -/
theorem c4_witness :
    (processEntry baseConfig oracleShrink initialState
        ⟨s2l "Images/a.jpg", s2l "xy"⟩ =
      { initialState with
          written := [(s2l "Images/a.webp", s2l "x")],
          image_conversions := [(s2l "Images/a.jpg", s2l "Images/a.webp")],
          stats := CompressionStats.add_processed_image {} 2 1 }) ∧
    (processEntry baseConfig oracleShrink initialState
        ⟨s2l "Audio/b.mp3", s2l "z"⟩ =
      { initialState with
          written := [(s2l "Audio/b.mp3", s2l "z")],
          stats := CompressionStats.add_kept_original_audio {} 1 }) := by
  constructor
  · have h := (c4_accept_policy baseConfig oracleShrink initialState
      ⟨s2l "Images/a.jpg", s2l "xy"⟩).1 (s2l "x") 2 1 (by decide) rfl (by decide)
    rw [h]
    decide
  · have h := (c4_accept_policy baseConfig oracleShrink initialState
      ⟨s2l "Audio/b.mp3", s2l "z"⟩).2.1 (s2l "z") 1 1 (by decide) rfl (by decide)
    rw [h]
    decide

/-- C5: for every media entry whose compression attempt fails, the run
continues (no error is propagated — `processEntry` is total), the original
bytes are written under the original path, and exactly the kind's skipped
counter is bumped once (`add_skipped_*` also folds the size into the byte
sums) — src/src/main.rs:650-666, 755-769, 886-904. -/
theorem c5_compress_error_fallback (cfg : Config) (C : Codecs) (st : RunState) (e : Entry) :
    (isImageEntryName e.path = true → cfg.skip_image = false →
      compress_image_file C e.data e.path cfg.image_quality = none →
      processEntry cfg C st e =
        { st with written := st.written ++ [(e.path, e.data)],
                  stats := st.stats.add_skipped_image e.data.length }) ∧
    (isAudioEntryName e.path = true → cfg.skip_audio = false →
      compress_audio_file C e.data e.path cfg.audio_quality = none →
      processEntry cfg C st e =
        { st with written := st.written ++ [(e.path, e.data)],
                  stats := st.stats.add_skipped_audio e.data.length }) ∧
    (isVideoEntryName e.path = true → cfg.skip_video = false →
      cfg.ffmpeg_available = true →
      compress_video_file C e.data e.path cfg.video_quality = none →
      processEntry cfg C st e =
        { st with written := st.written ++ [(e.path, e.data)],
                  stats := st.stats.add_skipped_video e.data.length }) := by
  refine ⟨?_, ?_, ?_⟩
  · intro himg hskip hc
    exact processEntry_image_none cfg C st e himg hskip hc
  · intro haud hskip hc
    exact processEntry_audio_none cfg C st e haud hskip hc
  · intro hvid hskip hff hc
    exact processEntry_video_none cfg C st e hvid (by rw [hskip, hff]; rfl) hc

/-- Witness for C5: with failing codecs, a JPEG, an MP3 and an MP4 entry are
each copied byte-identically to their original paths with one skipped count. -/
theorem c5_witness :
    (processEntry baseConfig oracleFail initialState
        ⟨s2l "Images/a.jpg", s2l "xy"⟩ =
      { initialState with
          written := [(s2l "Images/a.jpg", s2l "xy")],
          stats := CompressionStats.add_skipped_image {} 2 }) ∧
    (processEntry baseConfig oracleFail initialState
        ⟨s2l "Audio/b.mp3", s2l "z"⟩ =
      { initialState with
          written := [(s2l "Audio/b.mp3", s2l "z")],
          stats := CompressionStats.add_skipped_audio {} 1 }) ∧
    (processEntry baseConfig oracleFail initialState
        ⟨s2l "Video/c.mp4", s2l "uvw"⟩ =
      { initialState with
          written := [(s2l "Video/c.mp4", s2l "uvw")],
          stats := CompressionStats.add_skipped_video {} 3 }) := by
  refine ⟨?_, ?_, ?_⟩
  · have h := (c5_compress_error_fallback baseConfig oracleFail initialState
      ⟨s2l "Images/a.jpg", s2l "xy"⟩).1 (by decide) rfl (by decide)
    rw [h]
    decide
  · have h := (c5_compress_error_fallback baseConfig oracleFail initialState
      ⟨s2l "Audio/b.mp3", s2l "z"⟩).2.1 (by decide) rfl (by decide)
    rw [h]
    decide
  · have h := (c5_compress_error_fallback baseConfig oracleFail initialState
      ⟨s2l "Video/c.mp4", s2l "uvw"⟩).2.2 (by decide) rfl rfl (by decide)
    rw [h]
    decide

/-- C1 counterexample: a run over one `Video/v.mp4` entry with the external
encoder unavailable and `skip_video = false` — the code takes the skip
branch at src/src/main.rs:799-820 and calls `add_skipped_video`, so the
video Skipped counter for the run is 1, not 0 as the claim requires; the
entry is not pass-through in the statistics. -/
theorem c1_counterexample :
    (runPack { baseConfig with ffmpeg_available := false } oracleShrink
        [⟨s2l "Video/v.mp4", s2l "abc"⟩]).stats.video_skipped = 1 ∧
    ¬ (runPack { baseConfig with ffmpeg_available := false } oracleShrink
        [⟨s2l "Video/v.mp4", s2l "abc"⟩]).stats.video_skipped = 0 := by
  decide

/-- C1 amended: with the encoder unavailable and `skip_video = false`, every
Video entry has its original bytes written under its original path, but its
outcome is counted by `add_skipped_video` (the Skipped counter IS
incremented once per such entry, src/src/main.rs:820); the capability
warning of src/src/main.rs:506-516 is emitted once per run, before the
loop, and does not depend on the entries. -/
theorem c1_video_unavailable (cfg : Config) (C : Codecs) (st : RunState) (e : Entry)
    (hff : cfg.ffmpeg_available = false) (hskip : cfg.skip_video = false)
    (hvid : isVideoEntryName e.path = true) :
    processEntry cfg C st e =
      { st with written := st.written ++ [(e.path, e.data)],
                stats := st.stats.add_skipped_video e.data.length } ∧
    runCapabilityWarnings cfg = 1 := by
  constructor
  · exact processEntry_video_unavailable cfg C st e hvid (by rw [hskip, hff]; rfl)
  · unfold runCapabilityWarnings
    rw [if_pos ⟨hff, hskip⟩]

/-- Witness for the amended C1. -/
theorem c1_witness :
    (processEntry { baseConfig with ffmpeg_available := false } oracleShrink
        initialState ⟨s2l "Video/v.mp4", s2l "abc"⟩ =
      { initialState with
          written := [(s2l "Video/v.mp4", s2l "abc")],
          stats := CompressionStats.add_skipped_video {} 3 }) ∧
    runCapabilityWarnings { baseConfig with ffmpeg_available := false } = 1 := by
  have h := c1_video_unavailable { baseConfig with ffmpeg_available := false }
    oracleShrink initialState ⟨s2l "Video/v.mp4", s2l "abc"⟩ rfl rfl (by decide)
  exact ⟨by rw [h.1]; decide, h.2⟩

/-- An accepted image replacement: the only situation in which the rename
registry (`image_conversions`) changes (src/src/main.rs:614-631). -/
def imageAccepted (cfg : Config) (C : Codecs) (e : Entry) : Prop :=
  isImageEntryName e.path = true ∧ cfg.skip_image = false ∧
  ∃ cd os cs,
    compress_image_file C e.data e.path cfg.image_quality = some (cd, os, cs) ∧
    (cs < os ∨ cfg.always_compress = true)

/-- C2 counterexample: a `Images/b.webp` entry whose compression is accepted
is recorded in the rename registry as `(Images/b.webp, Images/b.webp)` —
a pair with `oldPath = newPath`, which the claim says is never recorded
(the insert at src/src/main.rs:629 is unconditional on the accept path). -/
theorem c2_counterexample :
    (runPack baseConfig oracleShrink
        [⟨s2l "Images/b.webp", s2l "xy"⟩]).image_conversions =
      [(s2l "Images/b.webp", s2l "Images/b.webp")] := by
  decide

/-- C2 amended: a pair is recorded in the rename registry iff the entry is
an accepted image replacement; the pair is always
`(path, to_webp_filename path)`, which coincide when the source already has
the webp extension.  `KeptOriginal`/`Skipped`/passed-through entries and
audio/video replacements never record. -/
theorem c2_rename_registry (cfg : Config) (C : Codecs) (st : RunState) (e : Entry) :
    (imageAccepted cfg C e →
      (processEntry cfg C st e).image_conversions =
        insertConv st.image_conversions e.path (to_webp_filename e.path)) ∧
    (¬ imageAccepted cfg C e →
      (processEntry cfg C st e).image_conversions = st.image_conversions) := by
  constructor
  · rintro ⟨himg, hskip, cd, os, cs, hc, hacc⟩
    rw [processEntry_image_some cfg C st e cd os cs himg hskip hc,
      if_neg (fun hk => (keep_iff os cs _).mp hk hacc)]
  · intro hnot
    by_cases hm : e.path = contentXmlName
    · rw [processEntry_manifest cfg C st e hm]
    · by_cases himg : isImageEntryName e.path = true
      · by_cases hskip : cfg.skip_image = true
        · rw [processEntry_image_skipflag cfg C st e himg hskip]
        · have hskip' : cfg.skip_image = false := by simpa using hskip
          rcases hc : compress_image_file C e.data e.path cfg.image_quality with
            _ | ⟨cd, os, cs⟩
          · rw [processEntry_image_none cfg C st e himg hskip' hc]
          · have hacc : ¬(cs < os ∨ cfg.always_compress = true) := fun h =>
              hnot ⟨himg, hskip', cd, os, cs, hc, h⟩
            rw [processEntry_image_some cfg C st e cd os cs himg hskip' hc,
              if_pos ((keep_iff os cs _).mpr hacc)]
      · have himg' : isImageEntryName e.path = false := by simpa using himg
        by_cases haud : isAudioEntryName e.path = true
        · by_cases hskip : cfg.skip_audio = true
          · rw [processEntry_audio_skipflag cfg C st e haud hskip]
          · have hskip' : cfg.skip_audio = false := by simpa using hskip
            rcases hc : compress_audio_file C e.data e.path cfg.audio_quality with
              _ | ⟨cd, os, cs⟩
            · rw [processEntry_audio_none cfg C st e haud hskip' hc]
            · rw [processEntry_audio_some cfg C st e cd os cs haud hskip' hc]
              split <;> rfl
        · have haud' : isAudioEntryName e.path = false := by simpa using haud
          by_cases hvid : isVideoEntryName e.path = true
          · by_cases hcond : (cfg.skip_video || !cfg.ffmpeg_available) = true
            · rw [processEntry_video_unavailable cfg C st e hvid hcond]
            · have hcond' : (cfg.skip_video || !cfg.ffmpeg_available) = false := by
                simpa using hcond
              rcases hc : compress_video_file C e.data e.path cfg.video_quality with
                _ | ⟨cd, os, cs⟩
              · rw [processEntry_video_none cfg C st e hvid hcond' hc]
              · rw [processEntry_video_some cfg C st e cd os cs hvid hcond' hc]
                split <;> rfl
          · have hvid' : isVideoEntryName e.path = false := by simpa using hvid
            rw [processEntry_other cfg C st e hm himg' haud' hvid']

/-- Witness for the amended C2: an accepted webp image records its self-pair;
the same entry with failing codecs records nothing. -/
theorem c2_witness :
    (processEntry baseConfig oracleShrink initialState
        ⟨s2l "Images/b.webp", s2l "xy"⟩).image_conversions =
      [(s2l "Images/b.webp", s2l "Images/b.webp")] ∧
    (processEntry baseConfig oracleFail initialState
        ⟨s2l "Images/b.webp", s2l "xy"⟩).image_conversions = [] := by
  constructor
  · have h := (c2_rename_registry baseConfig oracleShrink initialState
      ⟨s2l "Images/b.webp", s2l "xy"⟩).1
      ⟨by decide, rfl, s2l "x", 2, 1, by decide, Or.inl (by decide)⟩
    rw [h]
    decide
  · have h := (c2_rename_registry baseConfig oracleFail initialState
      ⟨s2l "Images/b.webp", s2l "xy"⟩).2 ?_
    · rw [h]
      rfl
    · rintro ⟨-, -, cd, os, cs, hc, -⟩
      have : (none : Option (Str × Nat × Nat)) = some (cd, os, cs) := by
        rw [← hc]
        decide
      exact absurd this (by simp)

/-- C7: if any of the three qualities is outside 1..=100, `compress_pack`
stops with a configuration error before the source archive is opened, the
destination created, or any entry read (empty effect trace); when all three
are in range, validation passes and the run proceeds
(src/src/main.rs:521-541). -/
theorem c7_quality_validation (cfg : Config) (C : Codecs) (entries : List Entry) :
    ((qualityInRange cfg.image_quality && qualityInRange cfg.audio_quality &&
        qualityInRange cfg.video_quality) = false →
      (compress_pack cfg C entries).1 = [] ∧
      ∃ err, (compress_pack cfg C entries).2 = Except.error err) ∧
    ((qualityInRange cfg.image_quality && qualityInRange cfg.audio_quality &&
        qualityInRange cfg.video_quality) = true →
      (compress_pack cfg C entries).2 = Except.ok (runPack cfg C entries) ∧
      (compress_pack cfg C entries).1 =
        [RunEvent.openedSource, RunEvent.createdDest] ++
          entries.map (fun e => RunEvent.readEntry e.path)) := by
  constructor
  · intro h
    cases hi : qualityInRange cfg.image_quality with
    | false =>
      have hcp : compress_pack cfg C entries = ([], .error .imageQualityRange) := by
        unfold compress_pack
        simp [hi]
      rw [hcp]
      exact ⟨rfl, .imageQualityRange, rfl⟩
    | true =>
      cases ha : qualityInRange cfg.audio_quality with
      | false =>
        have hcp : compress_pack cfg C entries = ([], .error .audioQualityRange) := by
          unfold compress_pack
          simp [hi, ha]
        rw [hcp]
        exact ⟨rfl, .audioQualityRange, rfl⟩
      | true =>
        cases hv : qualityInRange cfg.video_quality with
        | false =>
          have hcp : compress_pack cfg C entries = ([], .error .videoQualityRange) := by
            unfold compress_pack
            simp [hi, ha, hv]
          rw [hcp]
          exact ⟨rfl, .videoQualityRange, rfl⟩
        | true =>
          rw [hi, ha, hv] at h
          simp at h
  · intro h
    simp only [Bool.and_eq_true] at h
    obtain ⟨⟨hi, ha⟩, hv⟩ := h
    have hcp : compress_pack cfg C entries =
        ([RunEvent.openedSource, RunEvent.createdDest] ++
          entries.map (fun e => RunEvent.readEntry e.path),
         .ok (runPack cfg C entries)) := by
      unfold compress_pack
      simp [hi, ha, hv]
    rw [hcp]
    exact ⟨rfl, rfl⟩

/-- Witness for C7: quality 0 aborts with an empty trace; the baseline
configuration passes validation. -/
theorem c7_witness :
    ((compress_pack { baseConfig with image_quality := 0 } oracleShrink
        [⟨s2l "x.txt", s2l "d"⟩]).1 = [] ∧
      ∃ err, (compress_pack { baseConfig with image_quality := 0 } oracleShrink
        [⟨s2l "x.txt", s2l "d"⟩]).2 = Except.error err) ∧
    (compress_pack baseConfig oracleShrink [⟨s2l "x.txt", s2l "d"⟩]).2 =
      Except.ok (runPack baseConfig oracleShrink [⟨s2l "x.txt", s2l "d"⟩]) := by
  constructor
  · exact (c7_quality_validation { baseConfig with image_quality := 0 } oracleShrink
      [⟨s2l "x.txt", s2l "d"⟩]).1 (by decide)
  · exact ((c7_quality_validation baseConfig oracleShrink
      [⟨s2l "x.txt", s2l "d"⟩]).2 (by decide)).1

/-- C8: in every run, the destination archive's entry names are exactly the
non-manifest source entries' output names in source order, with
`content.xml` written last iff a manifest entry was present
(src/src/main.rs:559-925 stream in index order; 1021-1031 manifest written
after the loop). -/
theorem c8_write_order (cfg : Config) (C : Codecs) (entries : List Entry) :
    (runPack cfg C entries).written.map (fun w => w.1) =
      (entries.filter (fun e => e.path ≠ contentXmlName)).map (outPath cfg C) ++
        (if entries.any (fun e => e.path = contentXmlName) then [contentXmlName]
         else []) := by
  have hw := foldl_written cfg C entries initialState
  have hx := foldl_xml cfg C entries initialState
  have h0 : initialState.content_xml_data = (none : Option Str) := rfl
  rw [h0] at hx
  have hsome := xmlFold_isSome entries none
  rw [← hx] at hsome
  have hsome' :
      (entries.foldl (processEntry cfg C) initialState).content_xml_data.isSome =
        entries.any (fun e => e.path = contentXmlName) := by
    rw [hsome]
    simp
  rcases hxml : (entries.foldl (processEntry cfg C) initialState).content_xml_data
    with _ | m
  · rw [hxml] at hsome'
    simp only [Option.isSome_none] at hsome'
    have hfin : (runPack cfg C entries).written =
        (entries.foldl (processEntry cfg C) initialState).written := by
      unfold runPack finalizeRun
      rw [hxml]
    rw [hfin, hw, ← hsome']
    simp only [Bool.false_eq_true, if_false, List.append_nil]
    have h1 : initialState.written = [] := rfl
    rw [h1, List.nil_append, flatMap_entryWrite_paths]
  · rw [hxml] at hsome'
    simp only [Option.isSome_some] at hsome'
    have hfin : (runPack cfg C entries).written =
        (entries.foldl (processEntry cfg C) initialState).written ++
          [(contentXmlName,
            (rewriteXml (entries.foldl (processEntry cfg C)
              initialState).image_conversions m).1)] := by
      unfold runPack finalizeRun
      rw [hxml]
    rw [hfin, ← hsome']
    simp only [if_true, List.map_append, hw]
    have h1 : initialState.written = [] := rfl
    rw [h1, flatMap_entryWrite_paths]
    simp

set_option maxRecDepth 4000 in
/-- C9 counterexample: one accepted `Images/a.png` (2 bytes down to 1) plus a
manifest whose text is exactly `a.png`.  The manifest is patched to `a.webp`
(6 bytes) but `total_output_size` counted it at its original 5 bytes when it
was read (src/src/main.rs:579); the bytes actually written are 1 + 6 = 7
while the statistic says 6. -/
theorem c9_counterexample :
    (runPack baseConfig oracleShrink
        [⟨s2l "Images/a.png", s2l "PP"⟩,
         ⟨s2l "content.xml", s2l "a.png"⟩]).stats.total_output_size = 6 ∧
    sumSizes (runPack baseConfig oracleShrink
        [⟨s2l "Images/a.png", s2l "PP"⟩,
         ⟨s2l "content.xml", s2l "a.png"⟩]).written = 7 ∧
    ¬ ((runPack baseConfig oracleShrink
        [⟨s2l "Images/a.png", s2l "PP"⟩,
         ⟨s2l "content.xml", s2l "a.png"⟩]).stats.total_output_size =
      sumSizes (runPack baseConfig oracleShrink
        [⟨s2l "Images/a.png", s2l "PP"⟩,
         ⟨s2l "content.xml", s2l "a.png"⟩]).written) := by
  refine ⟨by decide, by decide, by decide⟩


/-- C9 amended: in every run, `total_output_size` equals the bytes written
during the stream phase plus each manifest's byte length **as read**; the
manifest entry itself is written as the patched text, whose length can
differ from the counted one (src/src/main.rs:579, 1021-1031, the size of
the patched `content.xml` is never re-tracked). -/
theorem c9_output_bytes (cfg : Config) (C : Codecs) (entries : List Entry) :
    (runPack cfg C entries).stats.total_output_size =
      sumSizes (entries.foldl (processEntry cfg C) initialState).written +
        manifestBytes entries ∧
    (runPack cfg C entries).written =
      (entries.foldl (processEntry cfg C) initialState).written ++
        (match (entries.foldl (processEntry cfg C) initialState).content_xml_data with
         | some m =>
            [(contentXmlName,
              (rewriteXml (entries.foldl (processEntry cfg C)
                initialState).image_conversions m).1)]
         | none => []) := by
  have ht := foldl_total_output cfg C entries initialState
  have hw := foldl_written cfg C entries initialState
  have h0 : initialState.stats.total_output_size = 0 := rfl
  have h1 : initialState.written = ([] : List (Str × Str)) := rfl
  rw [h0] at ht
  rw [h1, List.nil_append] at hw
  rcases hxml : (entries.foldl (processEntry cfg C) initialState).content_xml_data
    with _ | m
  · have hfin : runPack cfg C entries = entries.foldl (processEntry cfg C) initialState := by
      unfold runPack finalizeRun
      rw [hxml]
    rw [hfin]
    constructor
    · rw [ht, hw]
      omega
    · simp
  · have hfin1 : (runPack cfg C entries).stats.total_output_size =
        (entries.foldl (processEntry cfg C) initialState).stats.total_output_size := by
      unfold runPack finalizeRun
      rw [hxml]
      rfl
    have hfin2 : (runPack cfg C entries).written =
        (entries.foldl (processEntry cfg C) initialState).written ++
          [(contentXmlName,
            (rewriteXml (entries.foldl (processEntry cfg C)
              initialState).image_conversions m).1)] := by
      unfold runPack finalizeRun
      rw [hxml]
    rw [hfin1, hfin2]
    constructor
    · rw [ht, hw]
      omega
    · rfl

/-- C10: `compress_image_file` re-encodes every supported image in the same
format family its extension names (jpg/jpeg via the JPEG encoder, png via
the PNG encoder, webp via the WebP encoder — src/src/image.rs:38-96, there
is no format conversion); yet an accepted replacement is written and
recorded under `to_webp_filename`, a name whose extension is `webp`
(src/src/main.rs:614-631), so accepted JPEG/PNG bytes land under a `.webp`
path. -/
theorem c10_image_format_webp_path (cfg : Config) (C : Codecs) (st : RunState)
    (e : Entry) (cd : Str) (os cs : Nat)
    (himg : isImageEntryName e.path = true) (hskip : cfg.skip_image = false)
    (hc : compress_image_file C e.data e.path cfg.image_quality = some (cd, os, cs))
    (hacc : cs < os ∨ cfg.always_compress = true) :
    processEntry cfg C st e =
      { st with written := st.written ++ [(to_webp_filename e.path, cd)],
                image_conversions :=
                  insertConv st.image_conversions e.path (to_webp_filename e.path),
                stats := st.stats.add_processed_image os cs } ∧
    (∃ b, to_webp_filename e.path = b ++ '.' :: s2l "webp") ∧
    (detect_image_format e.path = some .jpeg →
      ∃ img, C.imgDecode e.data = some img ∧
        C.jpegEncode img cfg.image_quality = some cd) ∧
    (detect_image_format e.path = some .png →
      ∃ img, C.imgDecode e.data = some img ∧
        C.pngEncode img (pngCompressionType cfg.image_quality) = some cd) ∧
    (detect_image_format e.path = some .webp →
      ∃ img, C.imgDecode e.data = some img ∧
        cd = (if 95 ≤ cfg.image_quality then C.webpLossless img
              else C.webpLossy img cfg.image_quality)) := by
  refine ⟨?_, ?_, ?_, ?_, ?_⟩
  · rw [processEntry_image_some cfg C st e cd os cs himg hskip hc,
      if_neg (fun hk => (keep_iff os cs _).mp hk hacc)]
  · have hsupp : is_supported_image e.path = true := by
      unfold isImageEntryName at himg
      exact (Bool.and_eq_true _ _ ▸ himg).2
    unfold is_supported_image at hsupp
    rcases hext : extensionOf e.path with _ | ex <;> rw [hext] at hsupp
    · simp at hsupp
    · obtain ⟨b, hb⟩ := extensionOf_decomp hext
      refine ⟨b, ?_⟩
      unfold to_webp_filename
      rw [hext]
      simp only
      rw [hb]
      have hlen : (b ++ '.' :: ex).length - ex.length = (b ++ ['.']).length := by
        simp
        omega
      rw [hlen]
      have hassoc : b ++ '.' :: ex = (b ++ ['.']) ++ ex := by simp
      rw [hassoc, List.take_left]
      simp
  · intro hf
    unfold compress_image_file at hc
    rw [hf] at hc
    rcases hd : C.imgDecode e.data with _ | img <;> rw [hd] at hc
    · exact absurd hc (by simp)
    · simp only at hc
      rcases he : C.jpegEncode img cfg.image_quality with _ | out <;> rw [he] at hc
      · exact absurd hc (by simp)
      · simp only [Option.some.injEq, Prod.mk.injEq] at hc
        exact ⟨img, rfl, by rw [he, hc.1]⟩
  · intro hf
    unfold compress_image_file at hc
    rw [hf] at hc
    rcases hd : C.imgDecode e.data with _ | img <;> rw [hd] at hc
    · exact absurd hc (by simp)
    · simp only at hc
      rcases he : C.pngEncode img (pngCompressionType cfg.image_quality) with _ | out <;>
        rw [he] at hc
      · exact absurd hc (by simp)
      · simp only [Option.some.injEq, Prod.mk.injEq] at hc
        exact ⟨img, rfl, by rw [he, hc.1]⟩
  · intro hf
    unfold compress_image_file at hc
    rw [hf] at hc
    rcases hd : C.imgDecode e.data with _ | img <;> rw [hd] at hc
    · exact absurd hc (by simp)
    · simp only [Option.some.injEq, Prod.mk.injEq] at hc
      exact ⟨img, rfl, hc.1.symm⟩

/-- Witness for C10: a two-byte `Images/a.jpg` accepted at one byte is
written and recorded as `Images/a.webp` while its bytes come from the JPEG
encoder. -/
theorem c10_witness :
    (processEntry baseConfig oracleShrink initialState
        ⟨s2l "Images/a.jpg", s2l "xy"⟩ =
      { initialState with
          written := [(s2l "Images/a.webp", s2l "x")],
          image_conversions := [(s2l "Images/a.jpg", s2l "Images/a.webp")],
          stats := CompressionStats.add_processed_image {} 2 1 }) ∧
    (∃ b, to_webp_filename (s2l "Images/a.jpg") = b ++ '.' :: s2l "webp") ∧
    (∃ img, oracleShrink.imgDecode (s2l "xy") = some img ∧
      oracleShrink.jpegEncode img baseConfig.image_quality = some (s2l "x")) := by
  have h := c10_image_format_webp_path baseConfig oracleShrink initialState
    ⟨s2l "Images/a.jpg", s2l "xy"⟩ (s2l "x") 2 1 (by decide) rfl (by decide)
    (Or.inl (by decide))
  exact ⟨by rw [h.1]; decide, h.2.1, h.2.2.1 (by decide)⟩

lemma applyPattern_noop {xml : Str} {k : Nat} {p : Str × Str}
    (h : p.1 ≠ p.2 → countOccs p.1 xml = 0) : applyPattern (xml, k) p = (xml, k) := by
  unfold applyPattern
  by_cases hne : p.1 ≠ p.2
  · rw [if_pos hne]
    simp only [h hne, lt_irrefl, if_false]
  · rw [if_neg hne]

lemma foldl_applyPattern_noop :
    ∀ (ps : List (Str × Str)) (xml : Str) (k : Nat),
      (∀ p ∈ ps, p.1 ≠ p.2 → countOccs p.1 xml = 0) →
      ps.foldl applyPattern (xml, k) = (xml, k) := by
  intro ps
  induction ps with
  | nil => intro xml k _; rfl
  | cons p rest ih =>
    intro xml k h
    rw [List.foldl_cons, applyPattern_noop (h p (List.mem_cons_self p rest))]
    exact ih xml k (fun q hq hne => h q (List.mem_cons_of_mem p hq) hne)

lemma applyRecord_noop (xml : Str) (rec : Str × Str)
    (h : ∀ p ∈ recPatterns rec, p.1 ≠ p.2 → countOccs p.1 xml = 0) :
    applyRecord xml rec = (xml, 0) :=
  foldl_applyPattern_noop _ _ _ h

lemma rewriteXml_noop (convs : List (Str × Str)) (xml : Str)
    (h : ∀ rec ∈ convs, ∀ p ∈ recPatterns rec, p.1 ≠ p.2 → countOccs p.1 xml = 0) :
    rewriteXml convs xml = (xml, 0) := by
  unfold rewriteXml
  induction convs with
  | nil => rfl
  | cons rec rest ih =>
    rw [List.foldl_cons]
    have hr := applyRecord_noop xml rec (h rec (List.mem_cons_self _ _))
    simp only [hr, Nat.add_zero]
    exact ih (fun r hr' => h r (List.mem_cons_of_mem _ hr'))

set_option maxRecDepth 20000 in
/-- C3 counterexample: with rename records
`(Images/p.jpg → Images/p.webp), (Images/a.png → Images/a.webp)` (both of
the exact shape the pipeline produces) over the manifest text `a.png.jpg`,
the first pass yields `a.webp.jpg` (the `a.png → a.webp` replacement creates
a fresh occurrence of `p.jpg`), so a second pass with the same records
performs one further replacement instead of the required zero. -/
theorem c3_counterexample :
    (rewriteXml
        [(s2l "Images/p.jpg", s2l "Images/p.webp"),
         (s2l "Images/a.png", s2l "Images/a.webp")] (s2l "a.png.jpg")).1 =
      s2l "a.webp.jpg" ∧
    (rewriteXml
        [(s2l "Images/p.jpg", s2l "Images/p.webp"),
         (s2l "Images/a.png", s2l "Images/a.webp")]
      (rewriteXml
        [(s2l "Images/p.jpg", s2l "Images/p.webp"),
         (s2l "Images/a.png", s2l "Images/a.webp")] (s2l "a.png.jpg")).1).2 = 1 ∧
    ¬ ((rewriteXml
        [(s2l "Images/p.jpg", s2l "Images/p.webp"),
         (s2l "Images/a.png", s2l "Images/a.webp")]
      (rewriteXml
        [(s2l "Images/p.jpg", s2l "Images/p.webp"),
         (s2l "Images/a.png", s2l "Images/a.webp")] (s2l "a.png.jpg")).1).2 = 0) := by
  refine ⟨by decide, by decide, by decide⟩

/-- C3 amended: the Reference Rewriter is idempotent exactly under the
spec's own parenthetical proviso — when no generated old pattern (of a pair
whose sides differ) occurs in the first pass's output, the second pass with
the same records performs zero replacements.  In general a replacement can
create a new occurrence of another record's old pattern (see the
counterexample), so the proviso is a real hypothesis, not a fact. -/
theorem c3_rewrite_second_pass (convs : List (Str × Str)) (xml : Str)
    (h : ∀ rec ∈ convs, ∀ p ∈ recPatterns rec, p.1 ≠ p.2 →
      countOccs p.1 (rewriteXml convs xml).1 = 0) :
    rewriteXml convs (rewriteXml convs xml).1 = ((rewriteXml convs xml).1, 0) :=
  rewriteXml_noop convs _ h

set_option maxRecDepth 20000 in
/-- Witness for the amended C3: the single record `Images/a.png →
Images/a.webp` over the manifest `a.png` leaves no old pattern behind, and
the second pass indeed performs zero replacements. -/
theorem c3_witness :
    rewriteXml [(s2l "Images/a.png", s2l "Images/a.webp")]
        (rewriteXml [(s2l "Images/a.png", s2l "Images/a.webp")] (s2l "a.png")).1 =
      ((rewriteXml [(s2l "Images/a.png", s2l "Images/a.webp")] (s2l "a.png")).1, 0) :=
  c3_rewrite_second_pass [(s2l "Images/a.png", s2l "Images/a.webp")] (s2l "a.png")
    (by decide)

/-- The relation of claim C6: `p'` is `p` with only the letter case of its
file extension's characters changed — same text up to the extension, and
extensions equal after lowercasing (a path without an extension relates
only to itself). -/
def extCaseVariant (p p' : Str) : Prop :=
  (∃ b e e', p = b ++ e ∧ p' = b ++ e' ∧ extensionOf p = some e ∧
    extensionOf p' = some e' ∧ toLowerStr e = toLowerStr e') ∨
  (extensionOf p = none ∧ p = p')

/-- C6 counterexample: `content.XML` is a case variant of `content.xml` in
the extension only, yet `content.xml` classifies as Manifest while
`content.XML` classifies as Other — the literal manifest-name comparison at
src/src/main.rs:568 is case-sensitive, so classification is not invariant
under extension case changes for the manifest path. -/
theorem c6_counterexample :
    extCaseVariant (s2l "content.xml") (s2l "content.XML") ∧
    classify (s2l "content.xml") = EntryKind.manifest ∧
    classify (s2l "content.XML") = EntryKind.other ∧
    ¬ classify (s2l "content.xml") = classify (s2l "content.XML") := by
  refine ⟨Or.inl ⟨s2l "content.", s2l "xml", s2l "XML",
    by decide, by decide, by decide, by decide, by decide⟩,
    by decide, by decide, by decide⟩

/-- C6 amended: away from the literal manifest path, classification is
invariant under case changes in the file extension — the prefix tests look
only at the part before the extension and the supported-extension tests
lowercase it (src/src/main.rs:564-567, src/src/image.rs:5-12,
src/src/audio.rs:27-32, src/src/video.rs:29-39); only the
`file_name == "content.xml"` comparison is case-sensitive. -/
theorem c6_classify_case_insensitive (p p' : Str)
    (h : extCaseVariant p p')
    (hp : p ≠ contentXmlName) (hp' : p' ≠ contentXmlName) :
    classify p = classify p' := by
  rcases h with ⟨b, e, e', hpe, hpe', hep, hep', hlow⟩ | ⟨_, rfl⟩
  · subst hpe
    subst hpe'
    have he := extensionOf_chars hep
    have he' := extensionOf_chars hep'
    have hslash : '/' ∉ e := fun hx => (he _ hx).1 rfl
    have hslash' : '/' ∉ e' := fun hx => (he' _ hx).1 rfl
    have key : ∀ pre : Str, pre.getLast? = some '/' →
        pre.isPrefixOf (b ++ e) = pre.isPrefixOf (b ++ e') := fun pre hpre =>
      isPrefixOf_append_ext pre b e e' hpre hslash hslash'
    have h1 : isImageEntryName (b ++ e) = isImageEntryName (b ++ e') := by
      unfold isImageEntryName is_supported_image
      rw [key (s2l "Images/") (by decide), hep, hep']
      simp only
      rw [hlow]
    have h2 : isAudioEntryName (b ++ e) = isAudioEntryName (b ++ e') := by
      unfold isAudioEntryName is_supported_audio
      rw [key (s2l "Audio/") (by decide), hep, hep']
      simp only
      rw [hlow]
    have h3 : isVideoEntryName (b ++ e) = isVideoEntryName (b ++ e') := by
      unfold isVideoEntryName is_supported_video
      rw [key (s2l "Video/") (by decide), hep, hep']
      simp only
      rw [hlow]
    unfold classify
    rw [if_neg hp, if_neg hp', h1, h2, h3]
  · rfl

/-- Witness for the amended C6: `Images/a.JPG` and `Images/a.jpg` classify
identically. -/
theorem c6_witness :
    classify (s2l "Images/a.JPG") = classify (s2l "Images/a.jpg") :=
  c6_classify_case_insensitive (s2l "Images/a.JPG") (s2l "Images/a.jpg")
    (Or.inl ⟨s2l "Images/a.", s2l "JPG", s2l "jpg",
      by decide, by decide, by decide, by decide, by decide⟩)
    (by decide) (by decide)
